import Mathlib

/-!
CatBox firmware (`src/main.cpp`): a shallow embedding.

The firmware is a single-threaded Arduino sketch: `setup()` runs once, then
`loop()` runs forever, and three interrupt handlers update three global flags.
The embedding makes every effect explicit:

* `World` holds the output latches of the pins, the pin modes, the attached
  interrupt handlers, the three global flags, the elapsed time and the trace of
  effects performed so far (oldest first);
* `Env` is everything the sketch does not control: which sensor edges arrive
  while a statement runs, how long statements take beyond their nominal time,
  the state of the Wi-Fi link, the scan results and the pending HTTP requests;
* every primitive statement (`digitalWrite`, `delay`, `Serial.println`, a read
  of a flag in a loop condition, ...) first lets the environment act (`tick`)
  and then performs its own effect;
* the `while` loops take a budget of iterations (`fuel`) shared by the whole
  run; a run is either `done` (with the budget that is left) or `hung` (the
  budget ran out inside a loop, and the world is the one reached so far).
-/

namespace CatBox

/-! ## Data model -/

/-- Pins of the sketch, named after the constants of `main.cpp` (lines 17-25)
and `LED_BUILTIN`. The board header assigns them six distinct numbers. -/
inductive Pin
  | motor_forward
  | motor_backward
  | cat_sensor
  | hall_effect_home
  | hall_effect_dump
  | LED_BUILTIN
  deriving DecidableEq

/-- Logic level of a digital line. -/
inductive Level
  | LOW
  | HIGH
  deriving DecidableEq

/-- Second argument of `pinMode`. -/
inductive PinMode
  | INPUT
  | OUTPUT
  | INPUT_PULLUP
  deriving DecidableEq

/-- Global flags of the sketch (lines 21, 27, 28). -/
inductive Flag
  | catPresent
  | isHomeTriggered
  | isDumpedTriggered
  deriving DecidableEq

/-- Interrupt handlers of the sketch (lines 41-55). -/
inductive Handler
  | homeInterrupt
  | dumpInterrupt
  | catPresenceInterrupt
  deriving DecidableEq

/-- Functions whose entry and exit are recorded in the trace. -/
inductive Fn
  | empty
  | handleClient
  | handleEmpty
  | handleStatus
  | handleNotFound
  | connectToWifi
  deriving DecidableEq

/-- Request methods the router distinguishes. -/
inductive HttpMethod
  | GET
  | POST
  | OTHER
  deriving DecidableEq

/-- What the sketch reads from a pending request: `server.method()`,
`server.uri()` and `server.args()`. -/
structure Request where
  method : HttpMethod
  uri : String
  args : Nat
  deriving DecidableEq

/-- One entry of a Wi-Fi scan: `WiFi.SSID(i)`, `WiFi.RSSI(i)`,
`WiFi.channel(i)`, `WiFi.BSSIDstr(i)`. -/
structure Network where
  ssid : String
  rssi : Int
  channel : Nat
  bssid : String
  deriving DecidableEq

/-- An edge on an input pin; `line` is the level `digitalRead` returns when the
handler attached to the pin runs. -/
structure Edge where
  pin : Pin
  line : Level
  deriving DecidableEq

/-- Effects recorded in the trace. A call of `millis()` is recorded with the
time `t` at which it was made, in milliseconds since boot; the value the call
returns is `millisAt t`. -/
inductive Event
  | enter (f : Fn)
  | leave (f : Fn)
  | println (s : String)
  | print (s : String)
  | pinMode (p : Pin) (m : PinMode)
  | attachInterrupt (p : Pin) (h : Handler)
  | digitalWrite (p : Pin) (v : Level)
  | delay (ms : Nat)
  | read (f : Flag) (b : Bool)
  | millis (t : Nat)
  | send (code : Nat) (ctype : String) (body : String)
  | on (uri : String) (m : HttpMethod) (f : Fn)
  | onNotFound (f : Fn)
  | isConnected (b : Bool)
  | status (connected : Bool)
  | scanNetworks (n : Nat)
  | wifiBegin (ssid : String) (password : String) (channel : Nat) (bssid : String)
  deriving DecidableEq

/-- The environment of the sketch. Every field is indexed by the number of
primitive statements executed so far (`World.clock`). -/
structure Env where
  /-- Edges on input pins that arrive while statement `k` runs. -/
  edges : Nat → List Edge
  /-- Milliseconds statement `k` takes beyond its nominal duration. -/
  cost : Nat → Nat
  /-- Whether the Wi-Fi link is up when statement `k` asks. -/
  wifiUp : Nat → Bool
  /-- Result of `WiFi.scanNetworks()` when statement `k` asks. -/
  scan : Nat → List Network
  /-- Request `server.handleClient()` finds pending at statement `k`. -/
  client : Nat → Option Request
  /-- Value of `WiFi.macAddress()`. -/
  mac : String
  /-- Printed form of `WiFi.localIP()`. -/
  localIP : String
  /-- Text found in memory `n` characters after the start of the literal of
  line 141, for `n` beyond the literal. -/
  stray : Nat → String

/-- State of the board and of the sketch's globals. -/
structure World where
  /-- Output latch of each pin. -/
  level : Pin → Level
  /-- Mode of each pin, once `pinMode` has set it. -/
  mode : Pin → Option PinMode
  /-- Handler attached to each pin (`attachInterrupt(..., CHANGE)`). -/
  attached : Pin → Option Handler
  catPresent : Bool
  isHomeTriggered : Bool
  isDumpedTriggered : Bool
  /-- Routes registered with `server.on`, in registration order. -/
  routes : List (String × HttpMethod × Fn)
  /-- Handler registered with `server.onNotFound`. -/
  notFound : Option Fn
  /-- Number of primitive statements executed so far. -/
  clock : Nat
  /-- Milliseconds since boot (not truncated). -/
  now : Nat
  /-- Effects performed so far, oldest first. -/
  trace : List Event

/-- Outcome of running a piece of the sketch with a budget of loop
iterations. -/
inductive Run
  | done (fuel : Nat) (w : World)
  | hung (w : World)

/-- World a run ended in, or was in when the budget ran out. -/
def Run.world : Run → World
  | Run.done _ w => w
  | Run.hung w => w

/-- Whether the run returned. -/
def Run.returned : Run → Bool
  | Run.done _ _ => true
  | Run.hung _ => false

/-- Sequencing: the continuation runs only if the first part returned. -/
def Run.andThen (r : Run) (k : Nat → World → Run) : Run :=
  match r with
  | Run.done fuel w => k fuel w
  | Run.hung w => Run.hung w

/-- Value of a global flag. -/
def Flag.get : Flag → World → Bool
  | Flag.catPresent, w => w.catPresent
  | Flag.isHomeTriggered, w => w.isHomeTriggered
  | Flag.isDumpedTriggered, w => w.isDumpedTriggered

/-! ## Interrupt handlers (lines 41-55) -/

/-- Body of a handler, given the level its `digitalRead` returns.
`homeInterrupt`: `isHomeTriggered = digitalRead(hall_effect_home) == LOW`;
`dumpInterrupt`: `isDumpedTriggered = digitalRead(hall_effect_dump) == LOW`;
`catPresenceInterrupt`: `catPresent = digitalRead(cat_sensor)`. -/
def runHandler (h : Handler) (line : Level) (w : World) : World :=
  match h with
  | Handler.homeInterrupt => { w with isHomeTriggered := decide (line = Level.LOW) }
  | Handler.dumpInterrupt => { w with isDumpedTriggered := decide (line = Level.LOW) }
  | Handler.catPresenceInterrupt => { w with catPresent := decide (line = Level.HIGH) }

/-- An edge runs the handler attached to its pin, if any. -/
def fire (w : World) (e : Edge) : World :=
  match w.attached e.pin with
  | some h => runHandler h e.line w
  | none => w

/-! ## Primitive statements -/

/-- The environment acts while one primitive statement runs: the pending edges
fire their handlers, the clock advances, the statement's overhead elapses. -/
def tick (env : Env) (w : World) : World :=
  let w1 := (env.edges w.clock).foldl fire w
  { w1 with clock := w.clock + 1, now := w.now + env.cost w.clock }

/-- Append an effect to the trace. -/
def emit (e : Event) (w : World) : World :=
  { w with trace := w.trace ++ [e] }

/-- Statement `Serial.println(s)`. -/
def println (env : Env) (s : String) (w : World) : World :=
  emit (Event.println s) (tick env w)

/-- Statement `Serial.print(s)`. -/
def print (env : Env) (s : String) (w : World) : World :=
  emit (Event.print s) (tick env w)

/-- Statement `pinMode(p, m)`: sets the mode, leaves the output latch alone. -/
def pinMode (env : Env) (p : Pin) (m : PinMode) (w : World) : World :=
  let w1 := tick env w
  emit (Event.pinMode p m) { w1 with mode := fun q => if q = p then some m else w1.mode q }

/-- Statement `attachInterrupt(digitalPinToInterrupt(p), h, CHANGE)`. -/
def attachInterrupt (env : Env) (p : Pin) (h : Handler) (w : World) : World :=
  let w1 := tick env w
  emit (Event.attachInterrupt p h)
    { w1 with attached := fun q => if q = p then some h else w1.attached q }

/-- Statement `digitalWrite(p, v)`. -/
def digitalWrite (env : Env) (p : Pin) (v : Level) (w : World) : World :=
  let w1 := tick env w
  emit (Event.digitalWrite p v) { w1 with level := fun q => if q = p then v else w1.level q }

/-- Statement `delay(ms)`: at least `ms` milliseconds pass. Interrupt handlers
may run meanwhile (`tick`); the web server is serviced only by
`server.handleClient()`, so no callback of the sketch runs inside a delay. -/
def delay (env : Env) (ms : Nat) (w : World) : World :=
  let w1 := tick env w
  emit (Event.delay ms) { w1 with now := w1.now + ms }

/-- Read of a global flag in a condition; the value read is `f.get` of the
result. -/
def sample (env : Env) (f : Flag) (w : World) : World :=
  let w1 := tick env w
  emit (Event.read f (f.get w1)) w1

/-- Value `millis()` returns at true time `t`: a 32-bit `unsigned long`. -/
def millisAt (t : Nat) : Nat := t % 4294967296

/-- Call of `millis()`; the value returned is `millisAt` of the result's
`now`. -/
def millis (env : Env) (w : World) : World :=
  let w1 := tick env w
  emit (Event.millis w1.now) w1

/-- Subtraction `a - b` of two `unsigned long` values (both below `2^32`),
modulo `2^32`. -/
def sub32 (a b : Nat) : Nat := (a + 4294967296 - b) % 4294967296

/-- Loop `while (f != stop) { delay(100); }`, as in lines 82-85
(`!isDumpedTriggered`), 106-109 and 116-119 (`!isHomeTriggered`) and 279-282
(`catPresent`). Each `delay(100)` takes one unit of the budget. -/
def waitFlag (env : Env) (f : Flag) (stop : Bool) : Nat → World → Run
  | 0, w =>
    let w1 := sample env f w
    if f.get w1 = stop then Run.done 0 w1 else Run.hung w1
  | fuel + 1, w =>
    let w1 := sample env f w
    if f.get w1 = stop then Run.done (fuel + 1) w1
    else waitFlag env f stop fuel (delay env 100 w1)

/-! ## The cleaning cycle (lines 76-123) -/

/-- Lines 78-81: the log line and the forward command before the first wait. -/
def emptyStart (env : Env) (w : World) : World :=
  let w := emit (Event.enter Fn.empty) w
  let w := println env "Emptying the litter box..." w
  digitalWrite env Pin.motor_forward Level.HIGH w

/-- Lines 86-105: stop, settle, the four impulses, the reverse command before
the second wait. -/
def emptyJiggle (env : Env) (w : World) : World :=
  let w := digitalWrite env Pin.motor_forward Level.LOW w
  let w := delay env 1000 w
  let w := digitalWrite env Pin.motor_backward Level.HIGH w
  let w := delay env 500 w
  let w := digitalWrite env Pin.motor_backward Level.LOW w
  let w := digitalWrite env Pin.motor_forward Level.HIGH w
  let w := delay env 500 w
  let w := digitalWrite env Pin.motor_forward Level.LOW w
  let w := digitalWrite env Pin.motor_backward Level.HIGH w
  let w := delay env 500 w
  let w := digitalWrite env Pin.motor_backward Level.LOW w
  let w := digitalWrite env Pin.motor_forward Level.HIGH w
  let w := delay env 500 w
  let w := digitalWrite env Pin.motor_forward Level.LOW w
  let w := digitalWrite env Pin.motor_backward Level.LOW w
  digitalWrite env Pin.motor_backward Level.HIGH w

/-- Lines 110-115: the overshoot, stop, settle, the forward command before the
third wait. -/
def emptyOvershoot (env : Env) (w : World) : World :=
  let w := delay env 6500 w
  let w := digitalWrite env Pin.motor_backward Level.LOW w
  let w := delay env 1000 w
  digitalWrite env Pin.motor_forward Level.HIGH w

/-- Lines 120-122: the final stop and log line. -/
def emptyFinish (env : Env) (w : World) : World :=
  let w := digitalWrite env Pin.motor_forward Level.LOW w
  let w := println env "Litter box is empty!" w
  emit (Event.leave Fn.empty) w

/-- Function `empty()` (lines 76-123). -/
def empty (env : Env) (fuel : Nat) (w : World) : Run :=
  (waitFlag env Flag.isDumpedTriggered true fuel (emptyStart env w)).andThen fun fuel w =>
  (waitFlag env Flag.isHomeTriggered true fuel (emptyJiggle env w)).andThen fun fuel w =>
  (waitFlag env Flag.isHomeTriggered true fuel (emptyOvershoot env w)).andThen fun fuel w =>
  Run.done fuel (emptyFinish env w)

/-! ## Pin setup (lines 57-73) -/

/-- Function `setupPins()` (lines 57-73). -/
def setupPins (env : Env) (w : World) : World :=
  let w := pinMode env Pin.motor_forward PinMode.OUTPUT w
  let w := pinMode env Pin.motor_backward PinMode.OUTPUT w
  let w := pinMode env Pin.cat_sensor PinMode.INPUT w
  let w := attachInterrupt env Pin.cat_sensor Handler.catPresenceInterrupt w
  let w := pinMode env Pin.hall_effect_home PinMode.INPUT_PULLUP w
  let w := pinMode env Pin.hall_effect_dump PinMode.INPUT_PULLUP w
  let w := attachInterrupt env Pin.hall_effect_home Handler.homeInterrupt w
  attachInterrupt env Pin.hall_effect_dump Handler.dumpInterrupt w

/-! ## Web server handlers (lines 126-172) -/

/-- Function `turnOnLed()` (lines 126-129). -/
def turnOnLed (env : Env) (w : World) : World :=
  digitalWrite env Pin.LED_BUILTIN Level.LOW w

/-- Function `turnOffLed()` (lines 130-133). -/
def turnOffLed (env : Env) (w : World) : World :=
  digitalWrite env Pin.LED_BUILTIN Level.HIGH w

/-- Text printed by line 141, where `+` offsets the literal
`"Request params: "` by `server.args()` characters. The literal has 16
characters and a terminator; a larger offset reads past it (undefined
behaviour in C++), and the text is then whatever the environment holds
there. -/
def paramsLine (env : Env) (req : Request) : String :=
  if req.args ≤ 16 then "Request params: ".drop req.args else env.stray req.args

/-- Function `startRequest()` (lines 135-142). In line 139 the conditional
operator binds weaker than `+`, so its condition is a non-null pointer and the
line printed is `GET`; line 141 prints `paramsLine`. -/
def startRequest (env : Env) (req : Request) (w : World) : World :=
  let w := turnOnLed env w
  let w := println env "Handling request..." w
  let w := println env "GET" w
  let w := println env ("Request path: " ++ req.uri) w
  println env (paramsLine env req) w

/-- Function `endRequest()` (lines 143-147). -/
def endRequest (env : Env) (w : World) : World :=
  let w := turnOffLed env w
  println env "Request handled!" w

/-- Call `server.send(code, ctype, body)`. -/
def send (env : Env) (code : Nat) (ctype body : String) (w : World) : World :=
  emit (Event.send code ctype body) (tick env w)

/-- Function `handleEmpty()` (lines 149-155). -/
def handleEmpty (env : Env) (req : Request) (fuel : Nat) (w : World) : Run :=
  let w := emit (Event.enter Fn.handleEmpty) w
  let w := startRequest env req w
  let w := send env 200 "text/plain" "Running the empty procedure" w
  (empty env fuel w).andThen fun fuel w =>
  let w := endRequest env w
  Run.done fuel (emit (Event.leave Fn.handleEmpty) w)

/-- Function `handleStatus()` (lines 157-165). -/
def handleStatus (env : Env) (req : Request) (fuel : Nat) (w : World) : Run :=
  let w := emit (Event.enter Fn.handleStatus) w
  let w := startRequest env req w
  let w := send env 200 "text/plain" "hello from esp8266!" w
  let w := endRequest env w
  Run.done fuel (emit (Event.leave Fn.handleStatus) w)

/-- Function `handleNotFound()` (lines 167-172). -/
def handleNotFound (env : Env) (req : Request) (fuel : Nat) (w : World) : Run :=
  let w := emit (Event.enter Fn.handleNotFound) w
  let w := startRequest env req w
  let w := send env 404 "text/plain" "Not found" w
  let w := endRequest env w
  Run.done fuel (emit (Event.leave Fn.handleNotFound) w)

/-- Run a registered callback. Only the three handlers are ever registered; any
other name does nothing. -/
def callFn (env : Env) (f : Fn) (req : Request) (fuel : Nat) (w : World) : Run :=
  match f with
  | Fn.handleEmpty => handleEmpty env req fuel w
  | Fn.handleStatus => handleStatus env req fuel w
  | Fn.handleNotFound => handleNotFound env req fuel w
  | _ => Run.done fuel w

/-- The callback the router selects for a request: the first registered route
with the request's path and method, else the not-found callback. -/
def route (w : World) (req : Request) : Option Fn :=
  match w.routes.find? (fun r => decide (r.1 = req.uri ∧ r.2.1 = req.method)) with
  | some r => some r.2.2
  | none => w.notFound

/-- Call `server.handleClient()` of the web-server library (line 270), at its
boundary: it serves at most one pending request by running the callback the
router selects, and returns when the callback returns. -/
def handleClient (env : Env) (fuel : Nat) (w : World) : Run :=
  let pending := env.client w.clock
  let w := emit (Event.enter Fn.handleClient) (tick env w)
  match pending with
  | none => Run.done fuel (emit (Event.leave Fn.handleClient) w)
  | some req =>
    match route w req with
    | none => Run.done fuel (emit (Event.leave Fn.handleClient) w)
    | some f =>
      (callFn env f req fuel w).andThen fun fuel w =>
      Run.done fuel (emit (Event.leave Fn.handleClient) w)

/-- Lines 189-192 of `setupServer()`: the routes the sketch registers. -/
def registerRoutes (env : Env) (w : World) : World :=
  let w := tick env w
  let w := emit (Event.on "/status" HttpMethod.GET Fn.handleStatus)
    { w with routes := w.routes ++ [("/status", HttpMethod.GET, Fn.handleStatus)] }
  let w := tick env w
  let w := emit (Event.on "/empty" HttpMethod.GET Fn.handleEmpty)
    { w with routes := w.routes ++ [("/empty", HttpMethod.GET, Fn.handleEmpty)] }
  let w := tick env w
  emit (Event.onNotFound Fn.handleNotFound) { w with notFound := some Fn.handleNotFound }

/-! ## Wi-Fi association (lines 199-240) -/

/-- Constant `ssid` (line 9). -/
def ssid : String := "TestWifi"

/-- Constant `bssid` (line 10). -/
def bssid : String := "11:11:11:11:11:11"

/-- Constant `password` (line 11). -/
def password : String := "asdf"

/-- Lines 224-228: `while (WiFi.status() != WL_CONNECTED) { delay(500);
Serial.print("#"); }`. Each iteration takes one unit of the budget. -/
def waitLink (env : Env) : Nat → World → Run
  | 0, w =>
    let up := env.wifiUp w.clock
    let w1 := emit (Event.status up) (tick env w)
    if up then Run.done 0 w1 else Run.hung w1
  | fuel + 1, w =>
    let up := env.wifiUp w.clock
    let w1 := emit (Event.status up) (tick env w)
    if up then Run.done (fuel + 1) w1
    else waitLink env fuel (print env "#" (delay env 500 w1))

/-- Function `connectToWifi()` (lines 199-240). -/
def connectToWifi (env : Env) (fuel : Nat) (w : World) : Run :=
  let w := emit (Event.enter Fn.connectToWifi) w
  let w := println env "Connecting to wifi..." w
  let w := println env ("MAC: " ++ env.mac) w
  let nets := env.scan w.clock
  let w := emit (Event.scanNetworks nets.length) (tick env w)
  let w := println env ("Found " ++ toString nets.length ++ " networks") w
  let w := nets.foldl (fun w net => println env
    (net.ssid ++ " " ++ toString net.rssi ++ " " ++ toString net.channel ++ " " ++ net.bssid) w) w
  match nets.find? (fun net => decide (net.bssid = bssid)) with
  | some net =>
    let w := println env "Found matching bssid, connecting..." w
    let w := emit (Event.wifiBegin ssid password net.channel net.bssid) (tick env w)
    let w := println env ("Connected to " ++ ssid) w
    let w := println env "Waiting for connection..." w
    (waitLink env fuel w).andThen fun fuel w =>
    let w := println env "" w
    let w := print env "IP address: " w
    let w := println env env.localIP w
    Run.done fuel (emit (Event.leave Fn.connectToWifi) w)
  | none =>
    let w := println env "No matching BSSID found!!!" w
    Run.done fuel (emit (Event.leave Fn.connectToWifi) w)

/-! ## The supervisor (lines 262-292) -/

/-- Lines 272-291 of `loop()`: the cat-dwell step. -/
def dwellStep (env : Env) (fuel : Nat) (w : World) : Run :=
  let w := sample env Flag.catPresent w
  if Flag.catPresent.get w then
    let w := println env "Cat is present... waiting for cat to leave" w
    let w := millis env w
    let startTime := millisAt w.now
    (waitFlag env Flag.catPresent false fuel w).andThen fun fuel w =>
    let w := millis env w
    if sub32 (millisAt w.now) startTime > 10000 then
      let w := println env "Cat stayed in the box for more than 10 seconds, emptying the box" w
      empty env fuel w
    else
      Run.done fuel (println env "Cat left the box too soon" w)
  else
    Run.done fuel w

/-- Lines 264-270 of `loop()`: the link check and the network-servicing
step. -/
def loopService (env : Env) (fuel : Nat) (w : World) : Run :=
  let up := env.wifiUp w.clock
  let w := emit (Event.isConnected up) (tick env w)
  (if up then Run.done fuel w else connectToWifi env fuel w).andThen fun fuel w =>
  handleClient env fuel w

/-- Function `loop()` (lines 262-292): the link check and the
network-servicing step, then the cat-dwell step. -/
def loop (env : Env) (fuel : Nat) (w : World) : Run :=
  (loopService env fuel w).andThen fun fuel w => dwellStep env fuel w

/-- The Arduino core calls `loop()` again and again; `supervisor env n` is `n`
successive calls. -/
def supervisor (env : Env) : Nat → Nat → World → Run
  | 0, fuel, w => Run.done fuel w
  | n + 1, fuel, w => (loop env fuel w).andThen fun fuel w => supervisor env n fuel w

/-! ## Reading traces -/

/-- Effects a run added to the trace of the world it started in. -/
def eventsSince (w : World) (w' : World) : List Event :=
  w'.trace.drop w.trace.length

/-- One iteration of `while (f != stop) { delay(100); }` that stays in the
loop leaves a read of `!stop` and a `delay(100)` in the trace. -/
def polls (f : Flag) (stop : Bool) : Nat → List Event
  | 0 => []
  | n + 1 => Event.read f (!stop) :: Event.delay 100 :: polls f stop n

/-- World in which the loop `while (f != stop) { delay(100); }` entered in `w`
has just evaluated its condition for the `(j+1)`-th time, if it gets that
far. -/
def pollWorld (env : Env) (f : Flag) : Nat → World → World
  | 0, w => sample env f w
  | j + 1, w => pollWorld env f j (delay env 100 (sample env f w))

/-- Index `j` is the first at which `p` holds. -/
def firstAt (p : Nat → Bool) (j : Nat) : Prop :=
  p j = true ∧ ∀ i, i < j → p i = false

/-- World at the `(j+1)`-th check of `isDumpedTriggered` in the first wait of
`empty()` entered in `w`. -/
def atDumpPoll (env : Env) (w : World) (j : Nat) : World :=
  pollWorld env Flag.isDumpedTriggered j (emptyStart env w)

/-- World at the `(j+1)`-th check of `isHomeTriggered` in the second wait, when
the first wait ended at its check number `j1 + 1`. -/
def atReversePoll (env : Env) (w : World) (j1 j : Nat) : World :=
  pollWorld env Flag.isHomeTriggered j (emptyJiggle env (atDumpPoll env w j1))

/-- World at the `(j+1)`-th check of `isHomeTriggered` in the third wait, when
the first two waits ended at their checks number `j1 + 1` and `j2 + 1`. -/
def atHomingPoll (env : Env) (w : World) (j1 j2 j : Nat) : World :=
  pollWorld env Flag.isHomeTriggered j (emptyOvershoot env (atReversePoll env w j1 j2))

/-- Levels of (`motor_forward`, `motor_backward`) after one more effect. -/
def stepLines (s : Level × Level) : Event → Level × Level
  | Event.digitalWrite Pin.motor_forward v => (v, s.2)
  | Event.digitalWrite Pin.motor_backward v => (s.1, v)
  | _ => s

/-- Levels of (`motor_forward`, `motor_backward`) after a sequence of effects,
starting from levels `s`. -/
def linesAfter (s : Level × Level) : List Event → Level × Level
  | [] => s
  | e :: es => linesAfter (stepLines s e) es

/-- Both motor lines asserted. -/
def bothHigh (s : Level × Level) : Bool :=
  decide (s.1 = Level.HIGH) && decide (s.2 = Level.HIGH)

/-- Starting from levels `s`, after every `digitalWrite` of the sequence the
two motor lines are not both `HIGH`. -/
def safeWrites (s : Level × Level) : List Event → Bool
  | [] => true
  | Event.digitalWrite p v :: es =>
    !bothHigh (stepLines s (Event.digitalWrite p v)) &&
      safeWrites (stepLines s (Event.digitalWrite p v)) es
  | _ :: es => safeWrites s es

/-- Effects of the cycle proper: pin writes, waits and flag reads (serial
output and call markers left out). -/
def cycleStep : Event → Bool
  | Event.digitalWrite _ _ => true
  | Event.delay _ => true
  | Event.read _ _ => true
  | _ => false

/-- Times (in milliseconds since boot) of the calls of `millis()` in a trace,
in order. -/
def millisTimes : List Event → List Nat
  | [] => []
  | Event.millis t :: es => t :: millisTimes es
  | _ :: es => millisTimes es

/-- Value of `millis() - startTime` (32-bit) when `startTime` was read at time
`t0` and `millis()` is read at time `t1`. -/
def elapsed32 (t0 t1 : Nat) : Nat := sub32 (millisAt t1) (millisAt t0)

/-- Follows the runs of `empty()` through a trace: the flag says whether a run
is in progress; `none` when a run starts while one is in progress, or ends
while none is. -/
def runInProgress : Bool → List Event → Option Bool
  | b, [] => some b
  | b, Event.enter Fn.empty :: es => if b then none else runInProgress true es
  | b, Event.leave Fn.empty :: es => if b then runInProgress false es else none
  | b, _ :: es => runInProgress b es

/-- Effects of lines 78-81 (`emptyStart`). -/
def startEvents : List Event :=
  [Event.enter Fn.empty, Event.println "Emptying the litter box...",
   Event.digitalWrite Pin.motor_forward Level.HIGH]

/-- Effects of lines 86-105 (`emptyJiggle`). -/
def jiggleEvents : List Event :=
  [Event.digitalWrite Pin.motor_forward Level.LOW, Event.delay 1000,
   Event.digitalWrite Pin.motor_backward Level.HIGH, Event.delay 500,
   Event.digitalWrite Pin.motor_backward Level.LOW,
   Event.digitalWrite Pin.motor_forward Level.HIGH, Event.delay 500,
   Event.digitalWrite Pin.motor_forward Level.LOW,
   Event.digitalWrite Pin.motor_backward Level.HIGH, Event.delay 500,
   Event.digitalWrite Pin.motor_backward Level.LOW,
   Event.digitalWrite Pin.motor_forward Level.HIGH, Event.delay 500,
   Event.digitalWrite Pin.motor_forward Level.LOW,
   Event.digitalWrite Pin.motor_backward Level.LOW,
   Event.digitalWrite Pin.motor_backward Level.HIGH]

/-- Effects of lines 110-115 (`emptyOvershoot`). -/
def overshootEvents : List Event :=
  [Event.delay 6500, Event.digitalWrite Pin.motor_backward Level.LOW, Event.delay 1000,
   Event.digitalWrite Pin.motor_forward Level.HIGH]

/-- Effects of lines 120-122 (`emptyFinish`). -/
def finishEvents : List Event :=
  [Event.digitalWrite Pin.motor_forward Level.LOW, Event.println "Litter box is empty!",
   Event.leave Fn.empty]

/-- An environment in which nothing happens: no edges, no overhead, the link
up, no networks in range, no requests. -/
def idleEnv : Env where
  edges := fun _ => []
  cost := fun _ => 0
  wifiUp := fun _ => true
  scan := fun _ => []
  client := fun _ => none
  mac := "AA:BB:CC:DD:EE:FF"
  localIP := "192.168.1.50"
  stray := fun _ => ""

/-- The board at reset: every latch low, nothing configured, flags as
initialised in lines 21-28. -/
def bootWorld : World where
  level := fun _ => Level.LOW
  mode := fun _ => none
  attached := fun _ => none
  catPresent := false
  isHomeTriggered := false
  isDumpedTriggered := false
  routes := []
  notFound := none
  clock := 0
  now := 0
  trace := []

/-- The board after `setupPins()` and the route registrations, with an empty
trace and the clock at zero. -/
def readyWorld : World :=
  { registerRoutes idleEnv (setupPins idleEnv bootWorld) with clock := 0, trace := [] }

/-- A nominal sensor script for one cycle started in `readyWorld`: the dump
sensor closes during the second poll of the first wait, then the drum leaves
the dump position during the settle; the home sensor closes during the first
poll of the reverse wait, opens again during the overshoot, and closes during
the first poll of the final approach. -/
def cycleEnv : Env where
  edges := fun k =>
    if k = 5 then [Edge.mk Pin.hall_effect_dump Level.LOW]
    else if k = 8 then [Edge.mk Pin.hall_effect_dump Level.HIGH]
    else if k = 24 then [Edge.mk Pin.hall_effect_home Level.LOW]
    else if k = 26 then [Edge.mk Pin.hall_effect_home Level.HIGH]
    else if k = 31 then [Edge.mk Pin.hall_effect_home Level.LOW]
    else []
  cost := fun _ => 0
  wifiUp := fun _ => true
  scan := fun _ => []
  client := fun _ => none
  mac := "AA:BB:CC:DD:EE:FF"
  localIP := "192.168.1.50"
  stray := fun _ => ""

/-- The board as set up, with the cat already detected (`catPresent` set by an
earlier edge). -/
def catWorld : World :=
  { readyWorld with catPresent := true }

/-- The cat leaves during the first 100 ms poll of the dwell wait of a call of
`loop()` entered in `catWorld`. -/
def shortVisitEnv : Env :=
  { idleEnv with edges := fun k => if k = 6 then [Edge.mk Pin.cat_sensor Level.LOW] else [] }

/-- The cat leaves during the hundredth 100 ms poll of the dwell wait of a call
of `loop()` entered in `catWorld`; no statement takes longer than its nominal
time, the link is up and no request is pending. -/
def tenSecondEnv : Env :=
  { idleEnv with edges := fun k => if k = 204 then [Edge.mk Pin.cat_sensor Level.LOW] else [] }

/-- The cat leaves during the hundred-and-first 100 ms poll of the dwell wait
of a call of `loop()` entered in `catWorld`. -/
def longVisitEnv : Env :=
  { idleEnv with edges := fun k => if k = 206 then [Edge.mk Pin.cat_sensor Level.LOW] else [] }

/-- World `w'` extends the trace of `w` by effects that neither start nor end
a run of `empty()` and, when `q` is set, contain no call of `millis()` and no
entry into `handleEmpty()`. -/
def Calm (q : Bool) (w w' : World) : Prop :=
  ∃ evs, w'.trace = w.trace ++ evs ∧ (∀ b, runInProgress b evs = some b) ∧
    (q = true → millisTimes evs = [] ∧ evs.count (Event.enter Fn.handleEmpty) = 0)

/-- Run `r`, started in `w` with no run of `empty()` in progress, extends the
trace by effects in which runs of `empty()` never overlap, and leaves none in
progress if it returned; when `q` is set, the effects contain no call of
`millis()` and, if the run returned, as many entries into `empty()` as into
`handleEmpty()`. -/
def Orderly (q : Bool) (w : World) (r : Run) : Prop :=
  ∃ evs b, r.world.trace = w.trace ++ evs ∧ runInProgress false evs = some b ∧
    (r.returned = true → b = false) ∧
    (q = true → millisTimes evs = [] ∧ (r.returned = true →
      evs.count (Event.enter Fn.empty) = evs.count (Event.enter Fn.handleEmpty)))

/-- A board whose output latches are all high and on which nothing is
configured yet. -/
def hotWorld : World :=
  { bootWorld with level := fun _ => Level.HIGH }

/-- Whether an effect is a `digitalWrite`. -/
def isWrite : Event → Bool
  | Event.digitalWrite _ _ => true
  | _ => false

/-- A sensor script in which the home sensor closes during the first poll of
the reverse wait and no further edge arrives on it: the dump sensor closes
during the second poll of the first wait and opens during the settle. -/
def staleEnv : Env :=
  { idleEnv with edges := fun k =>
      if k = 5 then [Edge.mk Pin.hall_effect_dump Level.LOW]
      else if k = 8 then [Edge.mk Pin.hall_effect_dump Level.HIGH]
      else if k = 24 then [Edge.mk Pin.hall_effect_home Level.LOW]
      else [] }

/-- The board as set up with the cat already detected, 4294960000 ms after
boot: `millis()` wraps 7296 ms later. -/
def lateWorld : World :=
  { catWorld with now := 4294960000 }

/-- A call of `loop()` entered in `readyWorld` that finds `GET /empty` pending:
the cycle run by the handler follows the nominal sensor script, the cat enters
while the drum homes, and leaves during the statement numbered `leave` (49:
during the first 100 ms poll of the dwell wait; 249: during the
hundred-and-first). -/
def requestEnv (leave : Nat) : Env :=
  { idleEnv with
    client := fun k => if k = 1 then some (Request.mk HttpMethod.GET "/empty" 0) else none
    edges := fun k =>
      if k = 13 then [Edge.mk Pin.hall_effect_dump Level.LOW]
      else if k = 16 then [Edge.mk Pin.hall_effect_dump Level.HIGH]
      else if k = 32 then [Edge.mk Pin.hall_effect_home Level.LOW]
      else if k = 34 then [Edge.mk Pin.hall_effect_home Level.HIGH]
      else if k = 39 then [Edge.mk Pin.hall_effect_home Level.LOW]
      else if k = 40 then [Edge.mk Pin.cat_sensor Level.HIGH]
      else if k = leave then [Edge.mk Pin.cat_sensor Level.LOW]
      else [] }

/-! ## Basic facts about the primitives -/

theorem foldl_fire_frame (es : List Edge) (w : World) :
    (es.foldl fire w).trace = w.trace ∧ (es.foldl fire w).level = w.level ∧
    (es.foldl fire w).mode = w.mode ∧ (es.foldl fire w).attached = w.attached ∧
    (es.foldl fire w).routes = w.routes ∧ (es.foldl fire w).notFound = w.notFound := by
  induction es generalizing w with
  | nil => simp
  | cons e es ih =>
    have h : (fire w e).trace = w.trace ∧ (fire w e).level = w.level ∧
        (fire w e).mode = w.mode ∧ (fire w e).attached = w.attached ∧
        (fire w e).routes = w.routes ∧ (fire w e).notFound = w.notFound := by
      unfold fire
      cases w.attached e.pin with
      | none => simp
      | some h => cases h <;> simp [runHandler]
    obtain ⟨h1, h2, h3, h4, h5, h6⟩ := h
    obtain ⟨i1, i2, i3, i4, i5, i6⟩ := ih (fire w e)
    simp only [List.foldl_cons]
    exact ⟨i1.trans h1, i2.trans h2, i3.trans h3, i4.trans h4, i5.trans h5, i6.trans h6⟩

@[simp] theorem tick_trace (env : Env) (w : World) : (tick env w).trace = w.trace :=
  (foldl_fire_frame _ w).1

@[simp] theorem tick_level (env : Env) (w : World) : (tick env w).level = w.level :=
  (foldl_fire_frame _ w).2.1

@[simp] theorem tick_mode (env : Env) (w : World) : (tick env w).mode = w.mode :=
  (foldl_fire_frame _ w).2.2.1

@[simp] theorem tick_attached (env : Env) (w : World) : (tick env w).attached = w.attached :=
  (foldl_fire_frame _ w).2.2.2.1

@[simp] theorem tick_routes (env : Env) (w : World) : (tick env w).routes = w.routes :=
  (foldl_fire_frame _ w).2.2.2.2.1

@[simp] theorem tick_notFound (env : Env) (w : World) : (tick env w).notFound = w.notFound :=
  (foldl_fire_frame _ w).2.2.2.2.2

@[simp] theorem tick_clock (env : Env) (w : World) : (tick env w).clock = w.clock + 1 := rfl

@[simp] theorem tick_now (env : Env) (w : World) :
    (tick env w).now = w.now + env.cost w.clock := rfl

@[simp] theorem println_trace (env : Env) (s : String) (w : World) :
    (println env s w).trace = w.trace ++ [Event.println s] := by
  simp [println, emit]

@[simp] theorem println_clock (env : Env) (s : String) (w : World) :
    (println env s w).clock = w.clock + 1 := by
  simp [println, emit]

@[simp] theorem println_flag (env : Env) (s : String) (f : Flag) (w : World) :
    f.get (println env s w) = f.get (tick env w) := by
  cases f <;> simp [println, emit, Flag.get]

@[simp] theorem println_attached (env : Env) (s : String) (w : World) :
    (println env s w).attached = w.attached := by
  simp [println, emit]

@[simp] theorem println_level (env : Env) (s : String) (w : World) :
    (println env s w).level = w.level := by
  simp [println, emit]

@[simp] theorem println_mode (env : Env) (s : String) (w : World) :
    (println env s w).mode = w.mode := by
  simp [println, emit]

@[simp] theorem print_trace (env : Env) (s : String) (w : World) :
    (print env s w).trace = w.trace ++ [Event.print s] := by
  simp [print, emit]

@[simp] theorem print_clock (env : Env) (s : String) (w : World) :
    (print env s w).clock = w.clock + 1 := by
  simp [print, emit]

@[simp] theorem print_flag (env : Env) (s : String) (f : Flag) (w : World) :
    f.get (print env s w) = f.get (tick env w) := by
  cases f <;> simp [print, emit, Flag.get]

@[simp] theorem print_attached (env : Env) (s : String) (w : World) :
    (print env s w).attached = w.attached := by
  simp [print, emit]

@[simp] theorem print_level (env : Env) (s : String) (w : World) :
    (print env s w).level = w.level := by
  simp [print, emit]

@[simp] theorem print_mode (env : Env) (s : String) (w : World) :
    (print env s w).mode = w.mode := by
  simp [print, emit]

@[simp] theorem delay_trace (env : Env) (ms : Nat) (w : World) :
    (delay env ms w).trace = w.trace ++ [Event.delay ms] := by
  simp [delay, emit]

@[simp] theorem delay_clock (env : Env) (ms : Nat) (w : World) :
    (delay env ms w).clock = w.clock + 1 := by
  simp [delay, emit]

@[simp] theorem delay_flag (env : Env) (ms : Nat) (f : Flag) (w : World) :
    f.get (delay env ms w) = f.get (tick env w) := by
  cases f <;> simp [delay, emit, Flag.get]

@[simp] theorem delay_attached (env : Env) (ms : Nat) (w : World) :
    (delay env ms w).attached = w.attached := by
  simp [delay, emit]

@[simp] theorem delay_level (env : Env) (ms : Nat) (w : World) :
    (delay env ms w).level = w.level := by
  simp [delay, emit]

@[simp] theorem delay_mode (env : Env) (ms : Nat) (w : World) :
    (delay env ms w).mode = w.mode := by
  simp [delay, emit]

@[simp] theorem send_trace (env : Env) (code : Nat) (ctype body : String) (w : World) :
    (send env code ctype body w).trace = w.trace ++ [Event.send code ctype body] := by
  simp [send, emit]

@[simp] theorem send_clock (env : Env) (code : Nat) (ctype body : String) (w : World) :
    (send env code ctype body w).clock = w.clock + 1 := by
  simp [send, emit]

@[simp] theorem send_flag (env : Env) (code : Nat) (ctype body : String) (f : Flag) (w : World) :
    f.get (send env code ctype body w) = f.get (tick env w) := by
  cases f <;> simp [send, emit, Flag.get]

@[simp] theorem send_attached (env : Env) (code : Nat) (ctype body : String) (w : World) :
    (send env code ctype body w).attached = w.attached := by
  simp [send, emit]

@[simp] theorem send_level (env : Env) (code : Nat) (ctype body : String) (w : World) :
    (send env code ctype body w).level = w.level := by
  simp [send, emit]

@[simp] theorem send_mode (env : Env) (code : Nat) (ctype body : String) (w : World) :
    (send env code ctype body w).mode = w.mode := by
  simp [send, emit]

@[simp] theorem digitalWrite_trace (env : Env) (p : Pin) (v : Level) (w : World) :
    (digitalWrite env p v w).trace = w.trace ++ [Event.digitalWrite p v] := by
  simp [digitalWrite, emit]

@[simp] theorem digitalWrite_clock (env : Env) (p : Pin) (v : Level) (w : World) :
    (digitalWrite env p v w).clock = w.clock + 1 := by
  simp [digitalWrite, emit]

@[simp] theorem digitalWrite_flag (env : Env) (p : Pin) (v : Level) (f : Flag) (w : World) :
    f.get (digitalWrite env p v w) = f.get (tick env w) := by
  cases f <;> simp [digitalWrite, emit, Flag.get]

@[simp] theorem digitalWrite_attached (env : Env) (p : Pin) (v : Level) (w : World) :
    (digitalWrite env p v w).attached = w.attached := by
  simp [digitalWrite, emit]

@[simp] theorem digitalWrite_mode (env : Env) (p : Pin) (v : Level) (w : World) :
    (digitalWrite env p v w).mode = w.mode := by
  simp [digitalWrite, emit]

@[simp] theorem pinMode_trace (env : Env) (p : Pin) (m : PinMode) (w : World) :
    (pinMode env p m w).trace = w.trace ++ [Event.pinMode p m] := by
  simp [pinMode, emit]

@[simp] theorem pinMode_clock (env : Env) (p : Pin) (m : PinMode) (w : World) :
    (pinMode env p m w).clock = w.clock + 1 := by
  simp [pinMode, emit]

@[simp] theorem pinMode_flag (env : Env) (p : Pin) (m : PinMode) (f : Flag) (w : World) :
    f.get (pinMode env p m w) = f.get (tick env w) := by
  cases f <;> simp [pinMode, emit, Flag.get]

@[simp] theorem pinMode_attached (env : Env) (p : Pin) (m : PinMode) (w : World) :
    (pinMode env p m w).attached = w.attached := by
  simp [pinMode, emit]

@[simp] theorem pinMode_level (env : Env) (p : Pin) (m : PinMode) (w : World) :
    (pinMode env p m w).level = w.level := by
  simp [pinMode, emit]

@[simp] theorem attachInterrupt_trace (env : Env) (p : Pin) (h : Handler) (w : World) :
    (attachInterrupt env p h w).trace = w.trace ++ [Event.attachInterrupt p h] := by
  simp [attachInterrupt, emit]

@[simp] theorem attachInterrupt_clock (env : Env) (p : Pin) (h : Handler) (w : World) :
    (attachInterrupt env p h w).clock = w.clock + 1 := by
  simp [attachInterrupt, emit]

@[simp] theorem attachInterrupt_flag (env : Env) (p : Pin) (h : Handler) (f : Flag) (w : World) :
    f.get (attachInterrupt env p h w) = f.get (tick env w) := by
  cases f <;> simp [attachInterrupt, emit, Flag.get]

@[simp] theorem attachInterrupt_level (env : Env) (p : Pin) (h : Handler) (w : World) :
    (attachInterrupt env p h w).level = w.level := by
  simp [attachInterrupt, emit]

@[simp] theorem attachInterrupt_mode (env : Env) (p : Pin) (h : Handler) (w : World) :
    (attachInterrupt env p h w).mode = w.mode := by
  simp [attachInterrupt, emit]

@[simp] theorem digitalWrite_level (env : Env) (p : Pin) (v : Level) (w : World) (q : Pin) :
    (digitalWrite env p v w).level q = if q = p then v else w.level q := by
  simp [digitalWrite, emit]

@[simp] theorem pinMode_mode (env : Env) (p : Pin) (m : PinMode) (w : World) (q : Pin) :
    (pinMode env p m w).mode q = if q = p then some m else w.mode q := by
  simp [pinMode, emit]

@[simp] theorem emit_trace (e : Event) (w : World) : (emit e w).trace = w.trace ++ [e] := rfl

@[simp] theorem emit_level (e : Event) (w : World) : (emit e w).level = w.level := rfl

@[simp] theorem emit_mode (e : Event) (w : World) : (emit e w).mode = w.mode := rfl

@[simp] theorem emit_attached (e : Event) (w : World) : (emit e w).attached = w.attached := rfl

@[simp] theorem emit_clock (e : Event) (w : World) : (emit e w).clock = w.clock := rfl

@[simp] theorem emit_now (e : Event) (w : World) : (emit e w).now = w.now := rfl

@[simp] theorem emit_flag (e : Event) (f : Flag) (w : World) : f.get (emit e w) = f.get w := by
  cases f <;> rfl

@[simp] theorem sample_trace (env : Env) (f : Flag) (w : World) :
    (sample env f w).trace = w.trace ++ [Event.read f (f.get (sample env f w))] := by
  simp [sample]

@[simp] theorem sample_level (env : Env) (f : Flag) (w : World) :
    (sample env f w).level = w.level := by
  simp [sample]

@[simp] theorem sample_attached (env : Env) (f : Flag) (w : World) :
    (sample env f w).attached = w.attached := by
  simp [sample]

@[simp] theorem sample_clock (env : Env) (f : Flag) (w : World) :
    (sample env f w).clock = w.clock + 1 := by
  simp [sample]

theorem sample_flag (env : Env) (f g : Flag) (w : World) :
    g.get (sample env f w) = g.get (tick env w) := by
  simp [sample]

@[simp] theorem millis_trace (env : Env) (w : World) :
    (millis env w).trace = w.trace ++ [Event.millis (millis env w).now] := by
  simp [millis]

@[simp] theorem millis_level (env : Env) (w : World) : (millis env w).level = w.level := by
  simp [millis]

/-! ## The polling loop -/

theorem pollWorld_level (env : Env) (f : Flag) (j : Nat) (w : World) :
    (pollWorld env f j w).level = w.level := by
  induction j generalizing w with
  | zero => simp [pollWorld]
  | succ j ih => simp [pollWorld, ih]

theorem pollWorld_attached (env : Env) (f : Flag) (j : Nat) (w : World) :
    (pollWorld env f j w).attached = w.attached := by
  induction j generalizing w with
  | zero => simp [pollWorld]
  | succ j ih => simp [pollWorld, ih]

theorem pollWorld_clock (env : Env) (f : Flag) (j : Nat) (w : World) :
    (pollWorld env f j w).clock = w.clock + 2 * j + 1 := by
  induction j generalizing w with
  | zero => simp [pollWorld]
  | succ j ih => simp [pollWorld, ih]; omega

theorem pollWorld_now (env : Env) (f : Flag) (j : Nat) (w : World) :
    w.now ≤ (pollWorld env f j w).now := by
  induction j generalizing w with
  | zero => simp [pollWorld, sample]
  | succ j ih =>
    refine Nat.le_trans ?_ (ih _)
    simp [delay, sample]
    omega

/-- While the flag has not reached `stop`, the trace grows by one `polls`
entry per check. -/
theorem pollWorld_trace (env : Env) (f : Flag) (stop : Bool) (j : Nat) (w : World)
    (h : ∀ i, i < j → f.get (pollWorld env f i w) = !stop) :
    (pollWorld env f j w).trace =
      w.trace ++ (polls f stop j ++ [Event.read f (f.get (pollWorld env f j w))]) := by
  induction j generalizing w with
  | zero => simp [pollWorld, polls]
  | succ j ih =>
    have h0 : f.get (sample env f w) = !stop := h 0 (Nat.succ_pos j)
    have hs : ∀ i, i < j → f.get (pollWorld env f i (delay env 100 (sample env f w))) = !stop :=
      fun i hi => h (i + 1) (Nat.succ_lt_succ hi)
    simp [pollWorld, polls, ih _ hs, h0]

/-- The loop returns at the first check that finds the flag at `stop`, if the
budget reaches that far. -/
theorem waitFlag_done (env : Env) (f : Flag) (stop : Bool) (j fuel : Nat) (w : World)
    (hj : f.get (pollWorld env f j w) = stop)
    (h : ∀ i, i < j → f.get (pollWorld env f i w) = !stop) (hle : j ≤ fuel) :
    waitFlag env f stop fuel w = Run.done (fuel - j) (pollWorld env f j w) := by
  induction j generalizing w fuel with
  | zero =>
    have hj0 : f.get (sample env f w) = stop := hj
    cases fuel with
    | zero => simp [waitFlag, pollWorld, hj0]
    | succ n => simp [waitFlag, pollWorld, hj0]
  | succ j ih =>
    have h0 : f.get (sample env f w) = !stop := h 0 (Nat.succ_pos j)
    have hs : ∀ i, i < j → f.get (pollWorld env f i (delay env 100 (sample env f w))) = !stop :=
      fun i hi => h (i + 1) (Nat.succ_lt_succ hi)
    cases fuel with
    | zero => omega
    | succ n =>
      have hne : ¬ (f.get (sample env f w) = stop) := by
        rw [h0]; cases stop <;> simp
      have := ih n (delay env 100 (sample env f w)) hj hs (by omega)
      simp [waitFlag, pollWorld, hne, this]

/-- The loop is still running when the budget is spent and no check so far has
found the flag at `stop`. -/
theorem waitFlag_hung (env : Env) (f : Flag) (stop : Bool) (fuel : Nat) (w : World)
    (h : ∀ i, i ≤ fuel → f.get (pollWorld env f i w) = !stop) :
    waitFlag env f stop fuel w = Run.hung (pollWorld env f fuel w) := by
  induction fuel generalizing w with
  | zero =>
    have h0 : f.get (sample env f w) = !stop := h 0 (Nat.le_refl 0)
    have hne : ¬ (f.get (sample env f w) = stop) := by
      rw [h0]; cases stop <;> simp
    simp [waitFlag, pollWorld, hne]
  | succ n ih =>
    have h0 : f.get (sample env f w) = !stop := h 0 (Nat.zero_le _)
    have hne : ¬ (f.get (sample env f w) = stop) := by
      rw [h0]; cases stop <;> simp
    have hs : ∀ i, i ≤ n → f.get (pollWorld env f i (delay env 100 (sample env f w))) = !stop :=
      fun i hi => h (i + 1) (Nat.succ_le_succ hi)
    simp [waitFlag, pollWorld, hne, ih _ hs]

/-- Every run of the loop is one of the two above. -/
theorem waitFlag_cases (env : Env) (f : Flag) (stop : Bool) (fuel : Nat) (w : World) :
    (∃ j, j ≤ fuel ∧ f.get (pollWorld env f j w) = stop ∧
        (∀ i, i < j → f.get (pollWorld env f i w) = !stop) ∧
        waitFlag env f stop fuel w = Run.done (fuel - j) (pollWorld env f j w)) ∨
    ((∀ i, i ≤ fuel → f.get (pollWorld env f i w) = !stop) ∧
        waitFlag env f stop fuel w = Run.hung (pollWorld env f fuel w)) := by
  by_cases hex : ∃ j, j ≤ fuel ∧ f.get (pollWorld env f j w) = stop
  · left
    classical
    let j := Nat.find hex
    have hj : j ≤ fuel ∧ f.get (pollWorld env f j w) = stop := Nat.find_spec hex
    have hmin : ∀ i, i < j → f.get (pollWorld env f i w) = !stop := by
      intro i hi
      have hn := Nat.find_min hex hi
      have hne : ¬ f.get (pollWorld env f i w) = stop := fun hc => hn ⟨by omega, hc⟩
      revert hne
      cases f.get (pollWorld env f i w) <;> cases stop <;> simp
    exact ⟨j, hj.1, hj.2, hmin, waitFlag_done env f stop j fuel w hj.2 hmin hj.1⟩
  · right
    have hall : ∀ i, i ≤ fuel → f.get (pollWorld env f i w) = !stop := by
      intro i hi
      have hne : ¬ f.get (pollWorld env f i w) = stop := fun hc => hex ⟨i, hi, hc⟩
      revert hne
      cases f.get (pollWorld env f i w) <;> cases stop <;> simp
    exact ⟨hall, waitFlag_hung env f stop fuel w hall⟩


/-! ## The straight-line parts of `empty()` -/

theorem emptyStart_trace (env : Env) (w : World) :
    (emptyStart env w).trace = w.trace ++ startEvents := by
  simp [emptyStart, startEvents]

theorem emptyJiggle_trace (env : Env) (w : World) :
    (emptyJiggle env w).trace = w.trace ++ jiggleEvents := by
  simp [emptyJiggle, jiggleEvents]

theorem emptyOvershoot_trace (env : Env) (w : World) :
    (emptyOvershoot env w).trace = w.trace ++ overshootEvents := by
  simp [emptyOvershoot, overshootEvents]

theorem emptyFinish_trace (env : Env) (w : World) :
    (emptyFinish env w).trace = w.trace ++ finishEvents := by
  simp [emptyFinish, finishEvents]

theorem emptyStart_level (env : Env) (w : World) (q : Pin) :
    (emptyStart env w).level q = if q = Pin.motor_forward then Level.HIGH else w.level q := by
  simp [emptyStart]

theorem emptyJiggle_level (env : Env) (w : World) (q : Pin) :
    (emptyJiggle env w).level q =
      if q = Pin.motor_backward then Level.HIGH
      else if q = Pin.motor_forward then Level.LOW else w.level q := by
  cases q <;> simp [emptyJiggle]

theorem emptyOvershoot_level (env : Env) (w : World) (q : Pin) :
    (emptyOvershoot env w).level q =
      if q = Pin.motor_forward then Level.HIGH
      else if q = Pin.motor_backward then Level.LOW else w.level q := by
  cases q <;> simp [emptyOvershoot]

theorem emptyFinish_level (env : Env) (w : World) (q : Pin) :
    (emptyFinish env w).level q = if q = Pin.motor_forward then Level.LOW else w.level q := by
  simp [emptyFinish]

theorem emptyStart_attached (env : Env) (w : World) :
    (emptyStart env w).attached = w.attached := by
  simp [emptyStart]

theorem emptyJiggle_attached (env : Env) (w : World) :
    (emptyJiggle env w).attached = w.attached := by
  simp [emptyJiggle]

/-! ## The four ways a run of `empty()` can go -/

/-- A run of `empty()` is still in its first wait, or in its second, or in its
third, or has returned; the checks at which the waits ended are the first that
found the flag set. -/
theorem empty_cases (env : Env) (fuel : Nat) (w : World) :
    ((∀ i, i ≤ fuel → (atDumpPoll env w i).isDumpedTriggered = false) ∧
      empty env fuel w = Run.hung (atDumpPoll env w fuel)) ∨
    (∃ j1, j1 ≤ fuel ∧ firstAt (fun j => (atDumpPoll env w j).isDumpedTriggered) j1 ∧
      (((∀ i, i ≤ fuel - j1 → (atReversePoll env w j1 i).isHomeTriggered = false) ∧
        empty env fuel w = Run.hung (atReversePoll env w j1 (fuel - j1))) ∨
      (∃ j2, j2 ≤ fuel - j1 ∧
        firstAt (fun j => (atReversePoll env w j1 j).isHomeTriggered) j2 ∧
        (((∀ i, i ≤ fuel - j1 - j2 → (atHomingPoll env w j1 j2 i).isHomeTriggered = false) ∧
          empty env fuel w = Run.hung (atHomingPoll env w j1 j2 (fuel - j1 - j2))) ∨
        (∃ j3, j3 ≤ fuel - j1 - j2 ∧
          firstAt (fun j => (atHomingPoll env w j1 j2 j).isHomeTriggered) j3 ∧
          empty env fuel w =
            Run.done (fuel - j1 - j2 - j3) (emptyFinish env (atHomingPoll env w j1 j2 j3))))))) := by
  rcases waitFlag_cases env Flag.isDumpedTriggered true fuel (emptyStart env w) with
    ⟨j1, hj1, hd1, hm1, he1⟩ | ⟨hall1, he1⟩
  · right
    refine ⟨j1, hj1, ⟨hd1, fun i hi => by simpa using hm1 i hi⟩, ?_⟩
    rcases waitFlag_cases env Flag.isHomeTriggered true (fuel - j1)
        (emptyJiggle env (pollWorld env Flag.isDumpedTriggered j1 (emptyStart env w))) with
      ⟨j2, hj2, hd2, hm2, he2⟩ | ⟨hall2, he2⟩
    · right
      refine ⟨j2, hj2, ⟨hd2, fun i hi => by simpa using hm2 i hi⟩, ?_⟩
      rcases waitFlag_cases env Flag.isHomeTriggered true (fuel - j1 - j2)
          (emptyOvershoot env (pollWorld env Flag.isHomeTriggered j2
            (emptyJiggle env (pollWorld env Flag.isDumpedTriggered j1 (emptyStart env w))))) with
        ⟨j3, hj3, hd3, hm3, he3⟩ | ⟨hall3, he3⟩
      · right
        refine ⟨j3, hj3, ⟨hd3, fun i hi => by simpa using hm3 i hi⟩, ?_⟩
        simp [empty, Run.andThen, he1, he2, he3, atHomingPoll, atReversePoll, atDumpPoll]
      · left
        refine ⟨fun i hi => by simpa using hall3 i hi, ?_⟩
        simp [empty, Run.andThen, he1, he2, he3, atHomingPoll, atReversePoll, atDumpPoll]
    · left
      refine ⟨fun i hi => by simpa using hall2 i hi, ?_⟩
      simp [empty, Run.andThen, he1, he2, atReversePoll, atDumpPoll]
  · left
    refine ⟨fun i hi => by simpa using hall1 i hi, ?_⟩
    simp [empty, Run.andThen, he1, atDumpPoll]


/-! ## Traces of the worlds a run of `empty()` passes through -/

theorem atDumpPoll_trace (env : Env) (w : World) (j : Nat)
    (h : ∀ i, i < j → (atDumpPoll env w i).isDumpedTriggered = false) :
    (atDumpPoll env w j).trace = w.trace ++ (startEvents ++ (polls Flag.isDumpedTriggered true j ++
      [Event.read Flag.isDumpedTriggered (atDumpPoll env w j).isDumpedTriggered])) := by
  have h2 : ∀ i, i < j →
      Flag.isDumpedTriggered.get (pollWorld env Flag.isDumpedTriggered i (emptyStart env w)) =
        !true := fun i hi => by simpa using h i hi
  unfold atDumpPoll
  rw [pollWorld_trace env Flag.isDumpedTriggered true j _ h2, emptyStart_trace]
  simp [Flag.get]

theorem atReversePoll_trace (env : Env) (w : World) (j1 j : Nat)
    (h1 : firstAt (fun i => (atDumpPoll env w i).isDumpedTriggered) j1)
    (h : ∀ i, i < j → (atReversePoll env w j1 i).isHomeTriggered = false) :
    (atReversePoll env w j1 j).trace = w.trace ++ (startEvents ++
      (polls Flag.isDumpedTriggered true j1 ++ (Event.read Flag.isDumpedTriggered true ::
      (jiggleEvents ++ (polls Flag.isHomeTriggered true j ++
      [Event.read Flag.isHomeTriggered (atReversePoll env w j1 j).isHomeTriggered]))))) := by
  have h2 : ∀ i, i < j →
      Flag.isHomeTriggered.get (pollWorld env Flag.isHomeTriggered i
        (emptyJiggle env (atDumpPoll env w j1))) = !true := fun i hi => by simpa using h i hi
  have hd : (atDumpPoll env w j1).isDumpedTriggered = true := h1.1
  unfold atReversePoll
  rw [pollWorld_trace env Flag.isHomeTriggered true j _ h2, emptyJiggle_trace,
    atDumpPoll_trace env w j1 h1.2, hd]
  simp [Flag.get]

theorem atHomingPoll_trace (env : Env) (w : World) (j1 j2 j : Nat)
    (h1 : firstAt (fun i => (atDumpPoll env w i).isDumpedTriggered) j1)
    (h2 : firstAt (fun i => (atReversePoll env w j1 i).isHomeTriggered) j2)
    (h : ∀ i, i < j → (atHomingPoll env w j1 j2 i).isHomeTriggered = false) :
    (atHomingPoll env w j1 j2 j).trace = w.trace ++ (startEvents ++
      (polls Flag.isDumpedTriggered true j1 ++ (Event.read Flag.isDumpedTriggered true ::
      (jiggleEvents ++ (polls Flag.isHomeTriggered true j2 ++
      (Event.read Flag.isHomeTriggered true :: (overshootEvents ++
      (polls Flag.isHomeTriggered true j ++
      [Event.read Flag.isHomeTriggered (atHomingPoll env w j1 j2 j).isHomeTriggered])))))))) := by
  have h3 : ∀ i, i < j →
      Flag.isHomeTriggered.get (pollWorld env Flag.isHomeTriggered i
        (emptyOvershoot env (atReversePoll env w j1 j2))) = !true :=
    fun i hi => by simpa using h i hi
  have hd : (atReversePoll env w j1 j2).isHomeTriggered = true := h2.1
  unfold atHomingPoll
  rw [pollWorld_trace env Flag.isHomeTriggered true j _ h3, emptyOvershoot_trace,
    atReversePoll_trace env w j1 j2 h1 h2.2, hd]
  simp [Flag.get]

theorem atDumpPoll_level (env : Env) (w : World) (j : Nat) (q : Pin) :
    (atDumpPoll env w j).level q = if q = Pin.motor_forward then Level.HIGH else w.level q := by
  simp [atDumpPoll, pollWorld_level, emptyStart_level]

theorem atReversePoll_level (env : Env) (w : World) (j1 j : Nat) (q : Pin) :
    (atReversePoll env w j1 j).level q =
      if q = Pin.motor_backward then Level.HIGH
      else if q = Pin.motor_forward then Level.LOW else w.level q := by
  cases q <;> simp [atReversePoll, pollWorld_level, emptyJiggle_level, atDumpPoll_level]

theorem atHomingPoll_level (env : Env) (w : World) (j1 j2 j : Nat) (q : Pin) :
    (atHomingPoll env w j1 j2 j).level q =
      if q = Pin.motor_forward then Level.HIGH
      else if q = Pin.motor_backward then Level.LOW else w.level q := by
  cases q <;> simp [atHomingPoll, pollWorld_level, emptyOvershoot_level, atReversePoll_level]

theorem eventsSince_of_trace (w w' : World) (evs : List Event) (h : w'.trace = w.trace ++ evs) :
    eventsSince w w' = evs := by
  simp [eventsSince, h]

/-- The effects of a run of `empty()`, in each of the four ways it can go. -/
theorem empty_events (env : Env) (fuel : Nat) (w : World) :
    ((empty env fuel w).returned = false ∧
      eventsSince w (empty env fuel w).world =
        startEvents ++ (polls Flag.isDumpedTriggered true fuel ++
        [Event.read Flag.isDumpedTriggered false])) ∨
    (∃ j1 n, (empty env fuel w).returned = false ∧
      eventsSince w (empty env fuel w).world =
        startEvents ++ (polls Flag.isDumpedTriggered true j1 ++
        (Event.read Flag.isDumpedTriggered true :: (jiggleEvents ++
        (polls Flag.isHomeTriggered true n ++ [Event.read Flag.isHomeTriggered false]))))) ∨
    (∃ j1 j2 n, (empty env fuel w).returned = false ∧
      eventsSince w (empty env fuel w).world =
        startEvents ++ (polls Flag.isDumpedTriggered true j1 ++
        (Event.read Flag.isDumpedTriggered true :: (jiggleEvents ++
        (polls Flag.isHomeTriggered true j2 ++ (Event.read Flag.isHomeTriggered true ::
        (overshootEvents ++ (polls Flag.isHomeTriggered true n ++
        [Event.read Flag.isHomeTriggered false])))))))) ∨
    (∃ j1 j2 j3, (empty env fuel w).returned = true ∧
      eventsSince w (empty env fuel w).world =
        startEvents ++ (polls Flag.isDumpedTriggered true j1 ++
        (Event.read Flag.isDumpedTriggered true :: (jiggleEvents ++
        (polls Flag.isHomeTriggered true j2 ++ (Event.read Flag.isHomeTriggered true ::
        (overshootEvents ++ (polls Flag.isHomeTriggered true j3 ++
        (Event.read Flag.isHomeTriggered true :: finishEvents))))))))) := by
  rcases empty_cases env fuel w with
    ⟨hall, he⟩ | ⟨j1, _, h1, ⟨hall, he⟩ | ⟨j2, _, h2, ⟨hall, he⟩ | ⟨j3, _, h3, he⟩⟩⟩
  · left
    refine ⟨by simp [he, Run.returned], ?_⟩
    apply eventsSince_of_trace
    rw [he, Run.world, atDumpPoll_trace env w fuel (fun i hi => hall i (Nat.le_of_lt hi)),
      hall fuel (Nat.le_refl _)]
  · right; left
    refine ⟨j1, fuel - j1, by simp [he, Run.returned], ?_⟩
    apply eventsSince_of_trace
    rw [he, Run.world,
      atReversePoll_trace env w j1 _ h1 (fun i hi => hall i (Nat.le_of_lt hi)),
      hall _ (Nat.le_refl _)]
  · right; right; left
    refine ⟨j1, j2, fuel - j1 - j2, by simp [he, Run.returned], ?_⟩
    apply eventsSince_of_trace
    rw [he, Run.world,
      atHomingPoll_trace env w j1 j2 _ h1 h2 (fun i hi => hall i (Nat.le_of_lt hi)),
      hall _ (Nat.le_refl _)]
  · right; right; right
    refine ⟨j1, j2, j3, by simp [he, Run.returned], ?_⟩
    apply eventsSince_of_trace
    have hd : (atHomingPoll env w j1 j2 j3).isHomeTriggered = true := h3.1
    rw [he, Run.world, emptyFinish_trace, atHomingPoll_trace env w j1 j2 j3 h1 h2 h3.2, hd]
    simp


/-! ## Reading traces with polling segments -/

theorem safeWrites_polls (s : Level × Level) (f : Flag) (stop : Bool) (n : Nat)
    (rest : List Event) :
    safeWrites s (polls f stop n ++ rest) = safeWrites s rest := by
  induction n with
  | zero => simp [polls]
  | succ n ih => simp [polls, safeWrites, ih]

theorem linesAfter_polls (s : Level × Level) (f : Flag) (stop : Bool) (n : Nat)
    (rest : List Event) :
    linesAfter s (polls f stop n ++ rest) = linesAfter s rest := by
  induction n with
  | zero => simp [polls]
  | succ n ih => simp [polls, linesAfter, stepLines, ih]

theorem filter_cycleStep_polls (f : Flag) (stop : Bool) (n : Nat) :
    (polls f stop n).filter cycleStep = polls f stop n := by
  induction n with
  | zero => simp [polls]
  | succ n ih => simp [polls, cycleStep, ih]

theorem millisTimes_polls (f : Flag) (stop : Bool) (n : Nat) (rest : List Event) :
    millisTimes (polls f stop n ++ rest) = millisTimes rest := by
  induction n with
  | zero => simp [polls]
  | succ n ih => simp [polls, millisTimes, ih]

theorem runInProgress_polls (b : Bool) (f : Flag) (stop : Bool) (n : Nat) (rest : List Event) :
    runInProgress b (polls f stop n ++ rest) = runInProgress b rest := by
  induction n with
  | zero => simp [polls]
  | succ n ih => simp [polls, runInProgress, ih]

theorem count_polls (f : Flag) (stop : Bool) (n : Nat) (e : Event)
    (h1 : ∀ g b, e ≠ Event.read g b) (h2 : ∀ ms, e ≠ Event.delay ms) :
    (polls f stop n).count e = 0 := by
  induction n with
  | zero => simp [polls]
  | succ n ih =>
    have a1 : (Event.read f (!stop) == e) = false := by
      simpa using fun h => h1 f (!stop) h.symm
    have a2 : (Event.delay 100 == e) = false := by
      simpa using fun h => h2 100 h.symm
    simp [polls, List.count_cons, ih, a1, a2]

theorem not_mem_polls (f : Flag) (stop : Bool) (n : Nat) (e : Event)
    (h1 : ∀ g b, e ≠ Event.read g b) (h2 : ∀ ms, e ≠ Event.delay ms) :
    e ∉ polls f stop n := by
  intro h
  have := List.count_pos_iff.mpr h
  rw [count_polls f stop n e h1 h2] at this
  exact Nat.lt_irrefl 0 this

theorem linesAfter_polls_only (s : Level × Level) (f : Flag) (stop : Bool) (n : Nat) :
    linesAfter s (polls f stop n) = s := by
  have := linesAfter_polls s f stop n []
  simpa [linesAfter] using this

theorem linesAfter_append (s : Level × Level) (xs ys : List Event) :
    linesAfter s (xs ++ ys) = linesAfter (linesAfter s xs) ys := by
  induction xs generalizing s with
  | nil => rfl
  | cons x xs ih => simp [linesAfter, ih]


/-! ## Properties of the cleaning cycle -/

/-- C1 (motor safety during a cycle). A run of `empty()` entered with
`motor_forward` and `motor_backward` both `LOW` never has both lines `HIGH`
after any of its `digitalWrite`s, whatever the environment does and however
far the run has got (any budget of polls, returned or still waiting); and the
levels replayed from the trace are the levels of the lines in the world the
run has reached. -/
theorem motor_safety_during_cycle (env : Env) (fuel : Nat) (w : World)
    (hf : w.level Pin.motor_forward = Level.LOW)
    (hb : w.level Pin.motor_backward = Level.LOW) :
    safeWrites (w.level Pin.motor_forward, w.level Pin.motor_backward)
      (eventsSince w (empty env fuel w).world) = true ∧
    linesAfter (w.level Pin.motor_forward, w.level Pin.motor_backward)
      (eventsSince w (empty env fuel w).world) =
      ((empty env fuel w).world.level Pin.motor_forward,
       (empty env fuel w).world.level Pin.motor_backward) := by
  rw [hf, hb]
  rcases empty_cases env fuel w with
    ⟨hall, he⟩ | ⟨j1, _, h1, ⟨hall, he⟩ | ⟨j2, _, h2, ⟨hall, he⟩ | ⟨j3, _, h3, he⟩⟩⟩
  · have ht := eventsSince_of_trace w _ _
      (atDumpPoll_trace env w fuel (fun i hi => hall i (Nat.le_of_lt hi)))
    simp [he, Run.world, ht, startEvents, safeWrites, linesAfter, stepLines, bothHigh,
      safeWrites_polls, linesAfter_polls, atDumpPoll_level, hb]
  · have ht := eventsSince_of_trace w _ _
      (atReversePoll_trace env w j1 (fuel - j1) h1 (fun i hi => hall i (Nat.le_of_lt hi)))
    simp [he, Run.world, ht, startEvents, jiggleEvents, safeWrites, linesAfter, stepLines,
      bothHigh, safeWrites_polls, linesAfter_polls, atReversePoll_level]
  · have ht := eventsSince_of_trace w _ _
      (atHomingPoll_trace env w j1 j2 (fuel - j1 - j2) h1 h2
        (fun i hi => hall i (Nat.le_of_lt hi)))
    simp [he, Run.world, ht, startEvents, jiggleEvents, overshootEvents, safeWrites, linesAfter,
      stepLines, bothHigh, safeWrites_polls, linesAfter_polls, atHomingPoll_level]
  · have ht := eventsSince_of_trace w _ _ (atHomingPoll_trace env w j1 j2 j3 h1 h2 h3.2)
    have ht2 := eventsSince_of_trace w (emptyFinish env (atHomingPoll env w j1 j2 j3)) _
      (by rw [emptyFinish_trace, atHomingPoll_trace env w j1 j2 j3 h1 h2 h3.2,
            List.append_assoc])
    simp [he, Run.world, ht2, startEvents, jiggleEvents, overshootEvents, finishEvents,
      safeWrites, linesAfter, stepLines, bothHigh, safeWrites_polls, linesAfter_polls,
      linesAfter_polls_only, linesAfter_append, emptyFinish_level, atHomingPoll_level]

/-- C1, at a concrete run: the nominal sensor script on the board as set up. -/
theorem motor_safety_during_cycle_witness :
    readyWorld.level Pin.motor_forward = Level.LOW ∧
    readyWorld.level Pin.motor_backward = Level.LOW ∧
    safeWrites (readyWorld.level Pin.motor_forward, readyWorld.level Pin.motor_backward)
      (eventsSince readyWorld (empty cycleEnv 10 readyWorld).world) = true ∧
    linesAfter (readyWorld.level Pin.motor_forward, readyWorld.level Pin.motor_backward)
      (eventsSince readyWorld (empty cycleEnv 10 readyWorld).world) =
      ((empty cycleEnv 10 readyWorld).world.level Pin.motor_forward,
       (empty cycleEnv 10 readyWorld).world.level Pin.motor_backward) :=
  ⟨rfl, rfl, motor_safety_during_cycle cycleEnv 10 readyWorld rfl rfl⟩


/-- C2 (cycle termination at home). When a run of `empty()` returns, whatever
the levels of the two motor lines were on entry: both lines are `LOW`; the
effects of the run end with a read of `isHomeTriggered` that returned `true`,
the write of `LOW` to `motor_forward`, the closing log line and the return, so
that write is the last motor write and that read the last sensor read before
it; and when that read was made `motor_forward` was `HIGH` and
`motor_backward` was `LOW`. -/
theorem cycle_ends_at_home (env : Env) (fuel : Nat) (w : World)
    (h : (empty env fuel w).returned = true) :
    (empty env fuel w).world.level Pin.motor_forward = Level.LOW ∧
    (empty env fuel w).world.level Pin.motor_backward = Level.LOW ∧
    ∃ pre, eventsSince w (empty env fuel w).world =
        pre ++ [Event.read Flag.isHomeTriggered true,
          Event.digitalWrite Pin.motor_forward Level.LOW,
          Event.println "Litter box is empty!", Event.leave Fn.empty] ∧
      linesAfter (w.level Pin.motor_forward, w.level Pin.motor_backward) pre =
        (Level.HIGH, Level.LOW) := by
  rcases empty_cases env fuel w with
    ⟨_, he⟩ | ⟨j1, _, h1, ⟨_, he⟩ | ⟨j2, _, h2, ⟨_, he⟩ | ⟨j3, _, h3, he⟩⟩⟩
  · simp [he, Run.returned] at h
  · simp [he, Run.returned] at h
  · simp [he, Run.returned] at h
  · have hd : (atHomingPoll env w j1 j2 j3).isHomeTriggered = true := h3.1
    refine ⟨by simp [he, Run.world, emptyFinish_level],
      by simp [he, Run.world, emptyFinish_level, atHomingPoll_level], ?_⟩
    refine ⟨startEvents ++ (polls Flag.isDumpedTriggered true j1 ++
      (Event.read Flag.isDumpedTriggered true :: (jiggleEvents ++
      (polls Flag.isHomeTriggered true j2 ++ (Event.read Flag.isHomeTriggered true ::
      (overshootEvents ++ polls Flag.isHomeTriggered true j3)))))), ?_, ?_⟩
    · apply eventsSince_of_trace
      rw [he, Run.world, emptyFinish_trace, atHomingPoll_trace env w j1 j2 j3 h1 h2 h3.2, hd]
      simp [finishEvents]
    · simp [startEvents, jiggleEvents, overshootEvents, linesAfter, stepLines,
        linesAfter_polls, linesAfter_polls_only, linesAfter_append]

/-- C2, at a concrete run that returns. -/
theorem cycle_ends_at_home_witness :
    (empty cycleEnv 10 readyWorld).returned = true ∧
    (empty cycleEnv 10 readyWorld).world.level Pin.motor_forward = Level.LOW ∧
    (empty cycleEnv 10 readyWorld).world.level Pin.motor_backward = Level.LOW ∧
    ∃ pre, eventsSince readyWorld (empty cycleEnv 10 readyWorld).world =
        pre ++ [Event.read Flag.isHomeTriggered true,
          Event.digitalWrite Pin.motor_forward Level.LOW,
          Event.println "Litter box is empty!", Event.leave Fn.empty] ∧
      linesAfter (readyWorld.level Pin.motor_forward, readyWorld.level Pin.motor_backward) pre =
        (Level.HIGH, Level.LOW) :=
  ⟨by decide, cycle_ends_at_home cycleEnv 10 readyWorld (by decide)⟩

/-- C3 (cycle phase order). When a run of `empty()` returns, its pin writes,
waits and flag reads (serial output and call markers left out) are exactly:
forward on; polls of `isDumpedTriggered` every 100 ms until it reads `true`;
forward off; 1000 ms; reverse on, 500 ms, reverse off; forward on, 500 ms,
forward off; reverse on, 500 ms, reverse off; forward on, 500 ms, forward off,
reverse off; reverse on; polls of `isHomeTriggered` every 100 ms until it reads
`true`; 6500 ms; reverse off; 1000 ms; forward on; polls of `isHomeTriggered`
every 100 ms until it reads `true`; forward off. Only the three numbers of
polls vary. -/
theorem cycle_phase_order (env : Env) (fuel : Nat) (w : World)
    (h : (empty env fuel w).returned = true) :
    ∃ n1 n2 n3, (eventsSince w (empty env fuel w).world).filter cycleStep =
      Event.digitalWrite Pin.motor_forward Level.HIGH ::
      (polls Flag.isDumpedTriggered true n1 ++
      ([Event.read Flag.isDumpedTriggered true,
        Event.digitalWrite Pin.motor_forward Level.LOW, Event.delay 1000,
        Event.digitalWrite Pin.motor_backward Level.HIGH, Event.delay 500,
        Event.digitalWrite Pin.motor_backward Level.LOW,
        Event.digitalWrite Pin.motor_forward Level.HIGH, Event.delay 500,
        Event.digitalWrite Pin.motor_forward Level.LOW,
        Event.digitalWrite Pin.motor_backward Level.HIGH, Event.delay 500,
        Event.digitalWrite Pin.motor_backward Level.LOW,
        Event.digitalWrite Pin.motor_forward Level.HIGH, Event.delay 500,
        Event.digitalWrite Pin.motor_forward Level.LOW,
        Event.digitalWrite Pin.motor_backward Level.LOW,
        Event.digitalWrite Pin.motor_backward Level.HIGH] ++
      (polls Flag.isHomeTriggered true n2 ++
      ([Event.read Flag.isHomeTriggered true, Event.delay 6500,
        Event.digitalWrite Pin.motor_backward Level.LOW, Event.delay 1000,
        Event.digitalWrite Pin.motor_forward Level.HIGH] ++
      (polls Flag.isHomeTriggered true n3 ++
      [Event.read Flag.isHomeTriggered true,
        Event.digitalWrite Pin.motor_forward Level.LOW]))))) := by
  rcases empty_events env fuel w with
    ⟨hr, _⟩ | ⟨j1, n, hr, _⟩ | ⟨j1, j2, n, hr, _⟩ | ⟨j1, j2, j3, _, he⟩
  · rw [hr] at h; exact absurd h (by decide)
  · rw [hr] at h; exact absurd h (by decide)
  · rw [hr] at h; exact absurd h (by decide)
  · refine ⟨j1, j2, j3, ?_⟩
    rw [he]
    simp [startEvents, jiggleEvents, overshootEvents, finishEvents, List.filter_append,
      List.filter_cons, cycleStep, filter_cycleStep_polls]

/-- C3, at a concrete run that returns. -/
theorem cycle_phase_order_witness :
    (empty cycleEnv 10 readyWorld).returned = true ∧
    ∃ n1 n2 n3, (eventsSince readyWorld (empty cycleEnv 10 readyWorld).world).filter cycleStep =
      Event.digitalWrite Pin.motor_forward Level.HIGH ::
      (polls Flag.isDumpedTriggered true n1 ++
      ([Event.read Flag.isDumpedTriggered true,
        Event.digitalWrite Pin.motor_forward Level.LOW, Event.delay 1000,
        Event.digitalWrite Pin.motor_backward Level.HIGH, Event.delay 500,
        Event.digitalWrite Pin.motor_backward Level.LOW,
        Event.digitalWrite Pin.motor_forward Level.HIGH, Event.delay 500,
        Event.digitalWrite Pin.motor_forward Level.LOW,
        Event.digitalWrite Pin.motor_backward Level.HIGH, Event.delay 500,
        Event.digitalWrite Pin.motor_backward Level.LOW,
        Event.digitalWrite Pin.motor_forward Level.HIGH, Event.delay 500,
        Event.digitalWrite Pin.motor_forward Level.LOW,
        Event.digitalWrite Pin.motor_backward Level.LOW,
        Event.digitalWrite Pin.motor_backward Level.HIGH] ++
      (polls Flag.isHomeTriggered true n2 ++
      ([Event.read Flag.isHomeTriggered true, Event.delay 6500,
        Event.digitalWrite Pin.motor_backward Level.LOW, Event.delay 1000,
        Event.digitalWrite Pin.motor_forward Level.HIGH] ++
      (polls Flag.isHomeTriggered true n3 ++
      [Event.read Flag.isHomeTriggered true,
        Event.digitalWrite Pin.motor_forward Level.LOW]))))) :=
  ⟨by decide, cycle_phase_order cycleEnv 10 readyWorld (by decide)⟩


/-! ## The dwell step -/

theorem trace_of_eventsSince (w w' : World) (evs : List Event) (h : w'.trace = w.trace ++ evs) :
    w'.trace = w.trace ++ eventsSince w w' := by
  rw [eventsSince_of_trace w w' evs h, h]

/-- A run of `empty()` only appends to the trace. -/
theorem empty_extends (env : Env) (fuel : Nat) (w : World) :
    (empty env fuel w).world.trace = w.trace ++ eventsSince w (empty env fuel w).world := by
  rcases empty_cases env fuel w with
    ⟨hall, he⟩ | ⟨j1, _, h1, ⟨hall, he⟩ | ⟨j2, _, h2, ⟨hall, he⟩ | ⟨j3, _, h3, he⟩⟩⟩
  · rw [he, Run.world]
    exact trace_of_eventsSince _ _ _
      (atDumpPoll_trace env w fuel (fun i hi => hall i (Nat.le_of_lt hi)))
  · rw [he, Run.world]
    exact trace_of_eventsSince _ _ _
      (atReversePoll_trace env w j1 _ h1 (fun i hi => hall i (Nat.le_of_lt hi)))
  · rw [he, Run.world]
    exact trace_of_eventsSince _ _ _
      (atHomingPoll_trace env w j1 j2 _ h1 h2 (fun i hi => hall i (Nat.le_of_lt hi)))
  · rw [he, Run.world]
    have ha := atHomingPoll_trace env w j1 j2 j3 h1 h2 h3.2
    have hb : (emptyFinish env (atHomingPoll env w j1 j2 j3)).trace =
        w.trace ++ (eventsSince w (atHomingPoll env w j1 j2 j3) ++ finishEvents) := by
      rw [emptyFinish_trace, trace_of_eventsSince _ _ _ ha, List.append_assoc]
    exact trace_of_eventsSince _ _ _ hb

/-- What the effects of a run of `empty()` contain, however far it got: one
entry into `empty()`, no call of `millis()`, no "too soon" log line, no entry
into `handleClient` or `handleEmpty`; and the run is in progress at the end of
the trace exactly when it has not returned. -/
theorem empty_events_facts (env : Env) (fuel : Nat) (w : World) :
    (eventsSince w (empty env fuel w).world).count (Event.enter Fn.empty) = 1 ∧
    millisTimes (eventsSince w (empty env fuel w).world) = [] ∧
    Event.println "Cat left the box too soon" ∉ eventsSince w (empty env fuel w).world ∧
    Event.enter Fn.handleClient ∉ eventsSince w (empty env fuel w).world ∧
    Event.enter Fn.handleEmpty ∉ eventsSince w (empty env fuel w).world ∧
    runInProgress false (eventsSince w (empty env fuel w).world) =
      some (!(empty env fuel w).returned) := by
  have c1 := fun (f : Flag) (n : Nat) => count_polls f true n (Event.enter Fn.empty)
    (fun _ _ => by simp) (fun _ => by simp)
  have m1 := fun (f : Flag) (n : Nat) => not_mem_polls f true n
    (Event.println "Cat left the box too soon") (fun _ _ => by simp) (fun _ => by simp)
  have m2 := fun (f : Flag) (n : Nat) => not_mem_polls f true n
    (Event.enter Fn.handleClient) (fun _ _ => by simp) (fun _ => by simp)
  have m3 := fun (f : Flag) (n : Nat) => not_mem_polls f true n
    (Event.enter Fn.handleEmpty) (fun _ _ => by simp) (fun _ => by simp)
  rcases empty_events env fuel w with
    ⟨hr, he⟩ | ⟨j1, n, hr, he⟩ | ⟨j1, j2, n, hr, he⟩ | ⟨j1, j2, j3, hr, he⟩
  all_goals
    rw [he, hr]
    simp [startEvents, jiggleEvents, overshootEvents, finishEvents, List.count_cons,
      List.count_append, c1, m1, m2, m3, millisTimes, millisTimes_polls, runInProgress,
      runInProgress_polls]


theorem pollWorld_extends (env : Env) (f : Flag) (stop : Bool) (j : Nat) (w : World)
    (h : ∀ i, i < j → f.get (pollWorld env f i w) = !stop) (v : Bool)
    (hv : f.get (pollWorld env f j w) = v) :
    (pollWorld env f j w).trace = w.trace ++ (polls f stop j ++ [Event.read f v]) := by
  rw [pollWorld_trace env f stop j w h, hv]

/-- The effects of the dwell step (lines 272-291), in each of the ways it can
go: the cat is not there; the cat has not left yet; the cat left and the two
readings of `millis()` decide between a cycle and the "too soon" line. -/
theorem dwellStep_events (env : Env) (fuel : Nat) (w : World) :
    eventsSince w (dwellStep env fuel w).world = [Event.read Flag.catPresent false] ∨
    (∃ t0, eventsSince w (dwellStep env fuel w).world =
      Event.read Flag.catPresent true ::
      Event.println "Cat is present... waiting for cat to leave" :: Event.millis t0 ::
      (polls Flag.catPresent false fuel ++ [Event.read Flag.catPresent true])) ∨
    (∃ t0 t1 n tail, eventsSince w (dwellStep env fuel w).world =
      Event.read Flag.catPresent true ::
      Event.println "Cat is present... waiting for cat to leave" :: Event.millis t0 ::
      (polls Flag.catPresent false n ++
        (Event.read Flag.catPresent false :: Event.millis t1 :: tail)) ∧
      t0 ≤ t1 ∧
      ((10000 < elapsed32 t0 t1 ∧ ∃ fuel1 w1, tail =
          Event.println "Cat stayed in the box for more than 10 seconds, emptying the box" ::
            eventsSince w1 (empty env fuel1 w1).world) ∨
       (elapsed32 t0 t1 ≤ 10000 ∧ tail = [Event.println "Cat left the box too soon"]))) := by
  by_cases hc : Flag.catPresent.get (sample env Flag.catPresent w) = true
  · right
    have hw3 : (millis env (println env "Cat is present... waiting for cat to leave"
        (sample env Flag.catPresent w))).trace = w.trace ++
        [Event.read Flag.catPresent true,
         Event.println "Cat is present... waiting for cat to leave",
         Event.millis (millis env (println env
           "Cat is present... waiting for cat to leave" (sample env Flag.catPresent w))).now] := by
      simp [hc]
    generalize hw3def : millis env (println env "Cat is present... waiting for cat to leave"
        (sample env Flag.catPresent w)) = w3 at hw3
    rcases waitFlag_cases env Flag.catPresent false fuel w3 with
      ⟨j, _, hd, hm, he⟩ | ⟨hall, he⟩
    · right
      have hw4 := pollWorld_extends env Flag.catPresent false j w3 hm false hd
      generalize hw4def : pollWorld env Flag.catPresent j w3 = w4 at hw4 he
      have hw5 : (millis env w4).trace = w4.trace ++
          [Event.millis (millis env w4).now] := by simp
      have hmono : w3.now ≤ (millis env w4).now := by
        have h1 := pollWorld_now env Flag.catPresent j w3
        rw [hw4def] at h1
        have h2 : w4.now ≤ (millis env w4).now := by simp [millis]
        exact Nat.le_trans h1 h2
      generalize hw5def : millis env w4 = w5 at hw5 hmono
      by_cases hgt : 10000 < sub32 (millisAt w5.now) (millisAt w3.now)
      · refine ⟨w3.now, w5.now, j, _, ?_, hmono, Or.inl ⟨hgt, fuel - j,
          println env "Cat stayed in the box for more than 10 seconds, emptying the box" w5,
          rfl⟩⟩
        apply eventsSince_of_trace
        have hrun : dwellStep env fuel w = empty env (fuel - j)
            (println env "Cat stayed in the box for more than 10 seconds, emptying the box"
              w5) := by
          simp only [dwellStep, hc, if_true, hw3def, he, Run.andThen, hw5def]
          rw [if_pos hgt]
        rw [hrun, empty_extends, println_trace, hw5, hw4, hw3]
        simp
      · refine ⟨w3.now, w5.now, j, _, ?_, hmono, Or.inr ⟨Nat.le_of_not_lt hgt, rfl⟩⟩
        apply eventsSince_of_trace
        have hrun : dwellStep env fuel w =
            Run.done (fuel - j) (println env "Cat left the box too soon" w5) := by
          simp only [dwellStep, hc, if_true, hw3def, he, Run.andThen, hw5def]
          rw [if_neg hgt]
        rw [hrun, Run.world, println_trace, hw5, hw4, hw3]
        simp
    · left
      have hw4 := pollWorld_extends env Flag.catPresent false fuel w3
        (fun i hi => hall i (Nat.le_of_lt hi)) true (by simpa using hall fuel (Nat.le_refl _))
      refine ⟨w3.now, ?_⟩
      apply eventsSince_of_trace
      have hrun : dwellStep env fuel w = Run.hung (pollWorld env Flag.catPresent fuel w3) := by
        simp only [dwellStep, hc, if_true, hw3def, he, Run.andThen]
      rw [hrun, Run.world, hw4, hw3]
      simp
  · left
    have hc2 : Flag.catPresent.get (sample env Flag.catPresent w) = false := by
      simpa using hc
    apply eventsSince_of_trace
    have hrun : dwellStep env fuel w = Run.done fuel (sample env Flag.catPresent w) := by
      simp [dwellStep, hc2]
    rw [hrun, Run.world, sample_trace, hc2]


set_option maxRecDepth 1000000

/-! ## The `/empty` handler -/

theorem startRequest_trace (env : Env) (req : Request) (w : World) :
    (startRequest env req w).trace = w.trace ++
      [Event.digitalWrite Pin.LED_BUILTIN Level.LOW, Event.println "Handling request...",
       Event.println "GET", Event.println ("Request path: " ++ req.uri),
       Event.println (paramsLine env req)] := by
  simp [startRequest, turnOnLed]

theorem endRequest_trace (env : Env) (w : World) :
    (endRequest env w).trace = w.trace ++
      [Event.digitalWrite Pin.LED_BUILTIN Level.HIGH, Event.println "Request handled!"] := by
  simp [endRequest, turnOffLed]

/-- The routes registered by `setupServer()` send `GET /empty` to
`handleEmpty`, on a server with no earlier registrations. -/
theorem route_get_empty (env : Env) (w : World) (args : Nat) (h : w.routes = []) :
    route (registerRoutes env w) (Request.mk HttpMethod.GET "/empty" args) =
      some Fn.handleEmpty := by
  simp [route, registerRoutes, emit, h, List.find?]

/-- The trace of `handleEmpty()`: what precedes the cycle, the run of
`empty()`, and what follows once that run has returned. -/
theorem handleEmpty_trace (env : Env) (req : Request) (fuel : Nat) (w : World) :
    (handleEmpty env req fuel w).world.trace = w.trace ++
      ([Event.enter Fn.handleEmpty,
       Event.digitalWrite Pin.LED_BUILTIN Level.LOW, Event.println "Handling request...",
       Event.println "GET", Event.println ("Request path: " ++ req.uri),
       Event.println (paramsLine env req),
       Event.send 200 "text/plain" "Running the empty procedure"] ++
      (eventsSince
        (send env 200 "text/plain" "Running the empty procedure"
          (startRequest env req (emit (Event.enter Fn.handleEmpty) w)))
        (empty env fuel (send env 200 "text/plain" "Running the empty procedure"
          (startRequest env req (emit (Event.enter Fn.handleEmpty) w)))).world ++
      (if (handleEmpty env req fuel w).returned then
        [Event.digitalWrite Pin.LED_BUILTIN Level.HIGH, Event.println "Request handled!",
         Event.leave Fn.handleEmpty]
       else []))) ∧
    (handleEmpty env req fuel w).returned =
      (empty env fuel (send env 200 "text/plain" "Running the empty procedure"
        (startRequest env req (emit (Event.enter Fn.handleEmpty) w)))).returned := by
  generalize hw1 : send env 200 "text/plain" "Running the empty procedure"
    (startRequest env req (emit (Event.enter Fn.handleEmpty) w)) = w1
  have ht1 : w1.trace = w.trace ++
      [Event.enter Fn.handleEmpty,
       Event.digitalWrite Pin.LED_BUILTIN Level.LOW, Event.println "Handling request...",
       Event.println "GET", Event.println ("Request path: " ++ req.uri),
       Event.println (paramsLine env req),
       Event.send 200 "text/plain" "Running the empty procedure"] := by
    rw [← hw1, send_trace, startRequest_trace, emit_trace]
    simp
  have hext := empty_extends env fuel w1
  have hrun : handleEmpty env req fuel w = (empty env fuel w1).andThen fun fuel w =>
      Run.done fuel (emit (Event.leave Fn.handleEmpty) (endRequest env w)) := by
    simp only [handleEmpty, hw1]
  refine ⟨?_, ?_⟩
  · rw [hrun]
    cases he : empty env fuel w1 with
    | done f w2 =>
      rw [he] at hext
      simp only [Run.world] at hext
      simp only [Run.andThen, Run.world, Run.returned, if_true, emit_trace, endRequest_trace]
      rw [hext, ht1]
      simp
    | hung w2 =>
      rw [he] at hext
      simp only [Run.world] at hext
      simp only [Run.andThen, Run.world, Run.returned]
      rw [hext, ht1]
      simp
  · rw [hrun]
    cases empty env fuel w1 <;> rfl

theorem millisTimes_append (xs ys : List Event) :
    millisTimes (xs ++ ys) = millisTimes xs ++ millisTimes ys := by
  induction xs with
  | nil => rfl
  | cons x xs ih => cases x <;> simp [millisTimes, ih]

theorem runInProgress_append (b : Bool) (xs ys : List Event) :
    runInProgress b (xs ++ ys) = (runInProgress b xs).bind fun c => runInProgress c ys := by
  induction xs generalizing b with
  | nil => simp [runInProgress]
  | cons x xs ih =>
    cases x with
    | enter f => cases f <;> cases b <;> simp [runInProgress, ih]
    | leave f => cases f <;> cases b <;> simp [runInProgress, ih]
    | _ => simp [runInProgress, ih]

theorem no_entry_of_calm (evs : List Event) (h : ∀ b, runInProgress b evs = some b) :
    evs.count (Event.enter Fn.empty) = 0 := by
  induction evs with
  | nil => rfl
  | cons x es ih =>
    cases x with
    | enter f =>
      cases f with
      | empty => exact absurd (h true) (by simp [runInProgress])
      | _ =>
        rw [List.count_cons_of_ne (by simp)]
        exact ih (fun b => by simpa [runInProgress] using h b)
    | leave f =>
      cases f with
      | empty => exact absurd (h false) (by simp [runInProgress])
      | _ =>
        rw [List.count_cons_of_ne (by simp)]
        exact ih (fun b => by simpa [runInProgress] using h b)
    | _ =>
      rw [List.count_cons_of_ne (by simp)]
      exact ih (fun b => by simpa [runInProgress] using h b)

theorem Calm.refl (q : Bool) (w : World) : Calm q w w :=
  ⟨[], by simp, fun b => rfl, fun _ => ⟨rfl, rfl⟩⟩

theorem Calm.trans {q : Bool} {w1 w2 w3 : World} (h1 : Calm q w1 w2) (h2 : Calm q w2 w3) :
    Calm q w1 w3 := by
  obtain ⟨e1, t1, q1, m1⟩ := h1
  obtain ⟨e2, t2, q2, m2⟩ := h2
  refine ⟨e1 ++ e2, by rw [t2, t1, List.append_assoc], fun b => ?_, fun hq => ⟨?_, ?_⟩⟩
  · rw [runInProgress_append, q1 b]
    exact q2 b
  · rw [millisTimes_append, (m1 hq).1, (m2 hq).1]
    rfl
  · rw [List.count_append, (m1 hq).2, (m2 hq).2]

/-- One more effect that is no marker of `empty()`, no call of `millis()` and
no entry into `handleEmpty()`. -/
theorem calm_step {q : Bool} {w y z : World} (e : Event) (hz : z.trace = y.trace ++ [e])
    (h1 : e ≠ Event.enter Fn.empty) (h2 : e ≠ Event.leave Fn.empty)
    (h3 : ∀ v, e ≠ Event.millis v) (h4 : e ≠ Event.enter Fn.handleEmpty) (h : Calm q w y) :
    Calm q w z := by
  refine h.trans ⟨[e], hz, fun b => ?_, fun _ => ⟨?_, ?_⟩⟩
  · cases e with
    | enter f => cases f <;> simp_all [runInProgress]
    | leave f => cases f <;> simp_all [runInProgress]
    | _ => simp [runInProgress]
  · cases e with
    | millis v => exact absurd rfl (h3 v)
    | _ => rfl
  · rw [List.count_cons_of_ne (fun hc => h4 hc.symm)]
    rfl

theorem calm_tick {q : Bool} {env : Env} {w y : World} (h : Calm q w y) :
    Calm q w (tick env y) :=
  h.trans ⟨[], by simp, fun b => rfl, fun _ => ⟨rfl, rfl⟩⟩

theorem calm_emit {q : Bool} {e : Event} {w y : World} (h1 : e ≠ Event.enter Fn.empty)
    (h2 : e ≠ Event.leave Fn.empty) (h3 : ∀ v, e ≠ Event.millis v)
    (h4 : e ≠ Event.enter Fn.handleEmpty) (h : Calm q w y) : Calm q w (emit e y) :=
  calm_step e rfl h1 h2 h3 h4 h

theorem calm_println {q : Bool} {env : Env} {s : String} {w y : World} (h : Calm q w y) :
    Calm q w (println env s y) :=
  calm_step _ (println_trace env s y) (by simp) (by simp) (by simp) (by simp) h

theorem calm_print {q : Bool} {env : Env} {s : String} {w y : World} (h : Calm q w y) :
    Calm q w (print env s y) :=
  calm_step _ (print_trace env s y) (by simp) (by simp) (by simp) (by simp) h

theorem calm_delay {q : Bool} {env : Env} {ms : Nat} {w y : World} (h : Calm q w y) :
    Calm q w (delay env ms y) :=
  calm_step _ (delay_trace env ms y) (by simp) (by simp) (by simp) (by simp) h

theorem calm_digitalWrite {q : Bool} {env : Env} {p : Pin} {v : Level} {w y : World}
    (h : Calm q w y) : Calm q w (digitalWrite env p v y) :=
  calm_step _ (digitalWrite_trace env p v y) (by simp) (by simp) (by simp) (by simp) h

theorem calm_send {q : Bool} {env : Env} {code : Nat} {ctype body : String} {w y : World}
    (h : Calm q w y) : Calm q w (send env code ctype body y) :=
  calm_step _ (send_trace env code ctype body y) (by simp) (by simp) (by simp) (by simp) h

theorem calm_sample {q : Bool} {env : Env} {f : Flag} {w y : World} (h : Calm q w y) :
    Calm q w (sample env f y) :=
  calm_step _ (sample_trace env f y) (by simp) (by simp) (by simp) (by simp) h

theorem calm_millis {env : Env} {w y : World} (h : Calm false w y) :
    Calm false w (millis env y) :=
  h.trans ⟨_, millis_trace env y, fun b => by simp [runInProgress],
    fun hq => absurd hq (by decide)⟩

theorem calm_startRequest {q : Bool} {env : Env} {req : Request} {w y : World}
    (h : Calm q w y) : Calm q w (startRequest env req y) := by
  unfold startRequest turnOnLed
  exact calm_println (calm_println (calm_println (calm_println (calm_digitalWrite h))))

theorem calm_endRequest {q : Bool} {env : Env} {w y : World} (h : Calm q w y) :
    Calm q w (endRequest env y) := by
  unfold endRequest turnOffLed
  exact calm_println (calm_digitalWrite h)

theorem calm_foldl {q : Bool} {env : Env} {g : Network → String} {nets : List Network}
    {w y : World} (h : Calm q w y) :
    Calm q w (nets.foldl (fun w net => println env (g net) w) y) := by
  induction nets generalizing y with
  | nil => exact h
  | cons a nets ih => exact ih (calm_println h)

theorem calm_waitFlag {q : Bool} {env : Env} {f : Flag} {stop : Bool} {fuel : Nat}
    {w y : World} (h : Calm q w y) : Calm q w (waitFlag env f stop fuel y).world := by
  induction fuel generalizing y with
  | zero =>
    unfold waitFlag
    by_cases hc : f.get (sample env f y) = stop
    · simp only [hc, if_true, Run.world]; exact calm_sample h
    · simp only [hc, if_false, Run.world]; exact calm_sample h
  | succ n ih =>
    unfold waitFlag
    by_cases hc : f.get (sample env f y) = stop
    · simp only [hc, if_true, Run.world]; exact calm_sample h
    · simp only [hc, if_false]; exact ih (calm_delay (calm_sample h))

theorem calm_waitLink {q : Bool} {env : Env} {fuel : Nat} {w y : World} (h : Calm q w y) :
    Calm q w (waitLink env fuel y).world := by
  induction fuel generalizing y with
  | zero =>
    unfold waitLink
    cases env.wifiUp y.clock
    · show Calm q w (emit (Event.status false) (tick env y))
      exact calm_emit (by simp) (by simp) (by simp) (by simp) (calm_tick h)
    · show Calm q w (emit (Event.status true) (tick env y))
      exact calm_emit (by simp) (by simp) (by simp) (by simp) (calm_tick h)
  | succ n ih =>
    unfold waitLink
    cases env.wifiUp y.clock
    · show Calm q w (waitLink env n (print env "#" (delay env 500
        (emit (Event.status false) (tick env y))))).world
      exact ih (calm_print (calm_delay
        (calm_emit (by simp) (by simp) (by simp) (by simp) (calm_tick h))))
    · show Calm q w (emit (Event.status true) (tick env y))
      exact calm_emit (by simp) (by simp) (by simp) (by simp) (calm_tick h)

theorem orderly_of_calm {q : Bool} {w : World} {r : Run} (h : Calm q w r.world) :
    Orderly q w r := by
  obtain ⟨evs, t, hr, hm⟩ := h
  refine ⟨evs, false, t, hr false, fun _ => rfl, fun hq => ⟨(hm hq).1, fun _ => ?_⟩⟩
  rw [no_entry_of_calm evs hr, (hm hq).2]

theorem orderly_after {q : Bool} {w w1 : World} {r : Run} (h1 : Calm q w w1)
    (h2 : Orderly q w1 r) : Orderly q w r := by
  obtain ⟨e1, t1, q1, m1⟩ := h1
  obtain ⟨e2, b, t2, q2, hb, m2⟩ := h2
  refine ⟨e1 ++ e2, b, by rw [t2, t1, List.append_assoc], ?_, hb,
    fun hq => ⟨?_, fun hret => ?_⟩⟩
  · rw [runInProgress_append, q1 false]
    exact q2
  · rw [millisTimes_append, (m1 hq).1, (m2 hq).1]
    rfl
  · rw [List.count_append, List.count_append, no_entry_of_calm e1 q1, (m1 hq).2,
      (m2 hq).2 hret]

theorem orderly_andThen {q : Bool} {w : World} {r : Run} {k : Nat → World → Run}
    (h1 : Orderly q w r) (h2 : ∀ f w1, Orderly q w1 (k f w1)) : Orderly q w (r.andThen k) := by
  cases r with
  | hung w1 => exact h1
  | done f w1 =>
    obtain ⟨e1, b1, t1, q1, hb1, m1⟩ := h1
    obtain ⟨e2, b2, t2, q2, hb2, m2⟩ := h2 f w1
    have hb : b1 = false := hb1 rfl
    subst hb
    simp only [Run.world] at t1
    refine ⟨e1 ++ e2, b2, ?_, ?_, hb2, fun hq => ⟨?_, fun hret => ?_⟩⟩
    · simp only [Run.andThen]
      rw [t2, t1, List.append_assoc]
    · rw [runInProgress_append, q1]
      exact q2
    · rw [millisTimes_append, (m1 hq).1, (m2 hq).1]
      rfl
    · rw [List.count_append, List.count_append, (m1 hq).2 rfl, (m2 hq).2 hret]

theorem orderly_empty (env : Env) (fuel : Nat) (w : World) :
    Orderly false w (empty env fuel w) := by
  refine ⟨_, _, empty_extends env fuel w, (empty_events_facts env fuel w).2.2.2.2.2, ?_,
    fun hq => absurd hq (by decide)⟩
  intro h
  simp [h]

theorem orderly_waitFlag_then {q : Bool} {env : Env} {f : Flag} {stop : Bool} {fuel : Nat}
    {w w1 : World} {k : Nat → World → Run} (h1 : Calm q w w1)
    (h2 : ∀ f w2, Orderly q w2 (k f w2)) :
    Orderly q w ((waitFlag env f stop fuel w1).andThen k) :=
  orderly_after h1 (orderly_andThen (orderly_of_calm (calm_waitFlag (Calm.refl q w1))) h2)

theorem orderly_waitLink_then {q : Bool} {env : Env} {fuel : Nat} {w w1 : World}
    {k : Nat → World → Run} (h1 : Calm q w w1) (h2 : ∀ f w2, Orderly q w2 (k f w2)) :
    Orderly q w ((waitLink env fuel w1).andThen k) :=
  orderly_after h1 (orderly_andThen (orderly_of_calm (calm_waitLink (Calm.refl q w1))) h2)

theorem orderly_done {q : Bool} {fuel : Nat} {w w1 : World} (h : Calm q w w1) :
    Orderly q w (Run.done fuel w1) :=
  orderly_of_calm h

theorem orderly_handleEmpty {q : Bool} (env : Env) (req : Request) (fuel : Nat) (w : World) :
    Orderly q w (handleEmpty env req fuel w) := by
  obtain ⟨ht, hret⟩ := handleEmpty_trace env req fuel w
  obtain ⟨f1, f2, _, _, f5, f6⟩ := empty_events_facts env fuel
    (send env 200 "text/plain" "Running the empty procedure"
      (startRequest env req (emit (Event.enter Fn.handleEmpty) w)))
  have f5c := List.count_eq_zero_of_not_mem f5
  rw [← hret] at f6
  refine ⟨_, !(handleEmpty env req fuel w).returned, ht, ?_, fun h => by simp [h],
    fun _ => ⟨?_, fun _ => ?_⟩⟩
  · cases hr : (handleEmpty env req fuel w).returned <;> rw [hr] at f6 <;>
      simp [runInProgress_append, runInProgress, f6]
  · cases (handleEmpty env req fuel w).returned <;>
      simp [millisTimes_append, millisTimes, f2]
  · cases (handleEmpty env req fuel w).returned <;>
      simp [List.count_cons, List.count_append, f1, f5c]

theorem orderly_handleStatus {q : Bool} (env : Env) (req : Request) (fuel : Nat) (w : World) :
    Orderly q w (handleStatus env req fuel w) := by
  simp only [handleStatus]
  refine orderly_done ?_
  with_reducible repeat (first
    | apply calm_println
    | apply calm_print
    | apply calm_delay
    | apply calm_send
    | apply calm_sample
    | apply calm_millis
    | apply calm_tick
    | apply calm_startRequest
    | apply calm_endRequest
    | apply calm_foldl
    | refine calm_emit (by simp) (by simp) (by simp) (by simp) ?_
    | exact Calm.refl _ _)

theorem orderly_handleNotFound {q : Bool} (env : Env) (req : Request) (fuel : Nat) (w : World) :
    Orderly q w (handleNotFound env req fuel w) := by
  simp only [handleNotFound]
  refine orderly_done ?_
  with_reducible repeat (first
    | apply calm_println
    | apply calm_print
    | apply calm_delay
    | apply calm_send
    | apply calm_sample
    | apply calm_millis
    | apply calm_tick
    | apply calm_startRequest
    | apply calm_endRequest
    | apply calm_foldl
    | refine calm_emit (by simp) (by simp) (by simp) (by simp) ?_
    | exact Calm.refl _ _)

theorem orderly_callFn {q : Bool} (env : Env) (f : Fn) (req : Request) (fuel : Nat) (w : World) :
    Orderly q w (callFn env f req fuel w) := by
  cases f
  case handleEmpty => exact orderly_handleEmpty env req fuel w
  case handleStatus => exact orderly_handleStatus env req fuel w
  case handleNotFound => exact orderly_handleNotFound env req fuel w
  all_goals exact orderly_done (Calm.refl q w)

theorem orderly_handleClient {q : Bool} (env : Env) (fuel : Nat) (w : World) :
    Orderly q w (handleClient env fuel w) := by
  simp only [handleClient]
  have h0 : Calm q w (emit (Event.enter Fn.handleClient) (tick env w)) :=
    calm_emit (by simp) (by simp) (by simp) (by simp) (calm_tick (Calm.refl q w))
  have hleave : ∀ (f : Nat) (w1 : World),
      Orderly q w1 (Run.done f (emit (Event.leave Fn.handleClient) w1)) :=
    fun f w1 => orderly_done (calm_emit (by simp) (by simp) (by simp) (by simp) (Calm.refl q w1))
  cases env.client w.clock with
  | none => exact orderly_after h0 (hleave _ _)
  | some req =>
    dsimp only
    cases route (emit (Event.enter Fn.handleClient) (tick env w)) req with
    | none => exact orderly_after h0 (hleave _ _)
    | some f => exact orderly_after h0 (orderly_andThen (orderly_callFn env f req fuel _) hleave)

theorem orderly_connectToWifi {q : Bool} (env : Env) (fuel : Nat) (w : World) :
    Orderly q w (connectToWifi env fuel w) := by
  simp only [connectToWifi]
  cases List.find? _ _ with
  | none =>
    dsimp only
    refine orderly_done ?_
    with_reducible repeat (first
      | apply calm_println
      | apply calm_print
      | apply calm_delay
      | apply calm_send
      | apply calm_sample
      | apply calm_millis
      | apply calm_tick
      | apply calm_startRequest
      | apply calm_endRequest
      | apply calm_foldl
      | refine calm_emit (by simp) (by simp) (by simp) (by simp) ?_
      | exact Calm.refl _ _)
  | some net =>
    dsimp only
    refine orderly_waitLink_then ?_ fun f w2 => orderly_done ?_
    · with_reducible repeat (first
        | apply calm_println
        | apply calm_print
        | apply calm_delay
        | apply calm_send
        | apply calm_sample
        | apply calm_millis
        | apply calm_tick
        | apply calm_startRequest
        | apply calm_endRequest
        | apply calm_foldl
        | refine calm_emit (by simp) (by simp) (by simp) (by simp) ?_
        | exact Calm.refl _ _)
    · with_reducible repeat (first
        | apply calm_println
        | apply calm_print
        | apply calm_delay
        | apply calm_send
        | apply calm_sample
        | apply calm_millis
        | apply calm_tick
        | apply calm_startRequest
        | apply calm_endRequest
        | apply calm_foldl
        | refine calm_emit (by simp) (by simp) (by simp) (by simp) ?_
        | exact Calm.refl _ _)

theorem orderly_dwellStep (env : Env) (fuel : Nat) (w : World) :
    Orderly false w (dwellStep env fuel w) := by
  simp only [dwellStep]
  split
  · refine orderly_waitFlag_then ?_ fun f w2 => ?_
    · with_reducible repeat (first
        | apply calm_println
        | apply calm_print
        | apply calm_delay
        | apply calm_send
        | apply calm_sample
        | apply calm_millis
        | apply calm_tick
        | apply calm_startRequest
        | apply calm_endRequest
        | apply calm_foldl
        | refine calm_emit (by simp) (by simp) (by simp) (by simp) ?_
        | exact Calm.refl _ _)
    · split
      · have h := orderly_empty env f
          (println env "Cat stayed in the box for more than 10 seconds, emptying the box"
            (millis env w2))
        refine orderly_after ?_ h
        with_reducible repeat (first
          | apply calm_println
          | apply calm_print
          | apply calm_delay
          | apply calm_send
          | apply calm_sample
          | apply calm_millis
          | apply calm_tick
          | apply calm_startRequest
          | apply calm_endRequest
          | apply calm_foldl
          | refine calm_emit (by simp) (by simp) (by simp) (by simp) ?_
          | exact Calm.refl _ _)
      · refine orderly_done ?_
        with_reducible repeat (first
          | apply calm_println
          | apply calm_print
          | apply calm_delay
          | apply calm_send
          | apply calm_sample
          | apply calm_millis
          | apply calm_tick
          | apply calm_startRequest
          | apply calm_endRequest
          | apply calm_foldl
          | refine calm_emit (by simp) (by simp) (by simp) (by simp) ?_
          | exact Calm.refl _ _)
  · refine orderly_done ?_
    with_reducible repeat (first
      | apply calm_println
      | apply calm_print
      | apply calm_delay
      | apply calm_send
      | apply calm_sample
      | apply calm_millis
      | apply calm_tick
      | apply calm_startRequest
      | apply calm_endRequest
      | apply calm_foldl
      | refine calm_emit (by simp) (by simp) (by simp) (by simp) ?_
      | exact Calm.refl _ _)

theorem orderly_loopService {q : Bool} (env : Env) (fuel : Nat) (w : World) :
    Orderly q w (loopService env fuel w) := by
  simp only [loopService]
  have h0 : Calm q w (emit (Event.isConnected (env.wifiUp w.clock)) (tick env w)) :=
    calm_emit (by simp) (by simp) (by simp) (by simp) (calm_tick (Calm.refl q w))
  refine orderly_after h0 ?_
  refine orderly_andThen ?_ fun f w1 => orderly_handleClient env f w1
  split
  · exact orderly_done (Calm.refl _ _)
  · exact orderly_connectToWifi env fuel _

theorem orderly_loop (env : Env) (fuel : Nat) (w : World) :
    Orderly false w (loop env fuel w) :=
  orderly_andThen (orderly_loopService env fuel w) fun f w1 => orderly_dwellStep env f w1

theorem orderly_supervisor (env : Env) (n fuel : Nat) (w : World) :
    Orderly false w (supervisor env n fuel w) := by
  induction n generalizing fuel w with
  | zero => exact orderly_done (Calm.refl false w)
  | succ n ih => exact orderly_andThen (orderly_loop env fuel w) fun f w1 => ih f w1

theorem dwellStep_no_handleClient (env : Env) (fuel : Nat) (w : World) :
    Event.enter Fn.handleClient ∉ eventsSince w (dwellStep env fuel w).world := by
  have m1 := fun (n : Nat) => not_mem_polls Flag.catPresent false n
    (Event.enter Fn.handleClient) (fun _ _ => by simp) (fun _ => by simp)
  rcases dwellStep_events env fuel w with he | ⟨a, he⟩ | ⟨a, b, n, tail, he, _, hd⟩
  · rw [he]; simp
  · rw [he]; simp [m1]
  · rcases hd with ⟨_, fuel1, w1, ht⟩ | ⟨_, ht⟩
    · have hf := (empty_events_facts env fuel1 w1).2.2.2.1
      rw [he, ht]
      simp [m1, hf]
    · rw [he, ht]
      simp [m1]

/-- C7 (mutual exclusion of cycles). In every execution of the supervisor (any
number of calls of `loop()`, any environment, any budget, returned or still
inside a wait), following the entries into and returns from `empty()` through
the trace never meets an entry while a run is in progress nor a return while
none is, and no run is in progress when the supervisor has returned. A run of
`empty()` contains no entry into `server.handleClient()` and none into
`handleEmpty()`; the dwell step contains no entry into
`server.handleClient()` either, so the two triggers of `loop()` are served one
after the other. -/
theorem cycles_never_overlap (env : Env) (n fuel : Nat) (w : World) :
    (∃ b, runInProgress false (eventsSince w (supervisor env n fuel w).world) = some b ∧
      ((supervisor env n fuel w).returned = true → b = false)) ∧
    (∀ fuel1 w1, Event.enter Fn.handleClient ∉ eventsSince w1 (empty env fuel1 w1).world ∧
      Event.enter Fn.handleEmpty ∉ eventsSince w1 (empty env fuel1 w1).world) ∧
    (∀ fuel1 w1, Event.enter Fn.handleClient ∉ eventsSince w1 (dwellStep env fuel1 w1).world) := by
  refine ⟨?_, fun fuel1 w1 => ⟨(empty_events_facts env fuel1 w1).2.2.2.1,
    (empty_events_facts env fuel1 w1).2.2.2.2.1⟩, dwellStep_no_handleClient env⟩
  obtain ⟨evs, b, t, hr, hb, _⟩ := orderly_supervisor env n fuel w
  rw [eventsSince_of_trace w _ evs t]
  exact ⟨b, hr, hb⟩

/-! ## Pin setup -/

/-- C8 as stated fails: on a board whose `motor_forward` latch is high,
`setupPins()` makes the pin an output and leaves it high. -/
theorem setupPins_keeps_high_latch :
    hotWorld.level Pin.motor_forward = Level.HIGH ∧
    (setupPins idleEnv hotWorld).mode Pin.motor_forward = some PinMode.OUTPUT ∧
    (setupPins idleEnv hotWorld).level Pin.motor_forward = Level.HIGH ∧
    ¬ (∀ (env : Env) (w : World),
        (setupPins env w).level Pin.motor_forward = Level.LOW ∧
        (setupPins env w).level Pin.motor_backward = Level.LOW) := by
  refine ⟨rfl, by decide, by decide, fun h => ?_⟩
  have h1 := (h idleEnv hotWorld).1
  revert h1
  decide

/-- C8, amended. After `setupPins()`, whatever the levels before the call, both
motor pins are configured as outputs, the latch of every pin is what it was
before the call, and `setupPins()` has performed no `digitalWrite`; so the two
motor lines are `LOW` after the call exactly when they were `LOW` before it. -/
theorem setupPins_outputs_latches_unchanged (env : Env) (w : World) :
    (setupPins env w).mode Pin.motor_forward = some PinMode.OUTPUT ∧
    (setupPins env w).mode Pin.motor_backward = some PinMode.OUTPUT ∧
    (∀ p, (setupPins env w).level p = w.level p) ∧
    (eventsSince w (setupPins env w)).filter isWrite = [] := by
  refine ⟨by simp [setupPins], by simp [setupPins], fun p => by simp [setupPins], ?_⟩
  rw [eventsSince_of_trace w (setupPins env w)
    [Event.pinMode Pin.motor_forward PinMode.OUTPUT,
     Event.pinMode Pin.motor_backward PinMode.OUTPUT,
     Event.pinMode Pin.cat_sensor PinMode.INPUT,
     Event.attachInterrupt Pin.cat_sensor Handler.catPresenceInterrupt,
     Event.pinMode Pin.hall_effect_home PinMode.INPUT_PULLUP,
     Event.pinMode Pin.hall_effect_dump PinMode.INPUT_PULLUP,
     Event.attachInterrupt Pin.hall_effect_home Handler.homeInterrupt,
     Event.attachInterrupt Pin.hall_effect_dump Handler.dumpInterrupt]
    (by simp [setupPins])]
  simp [isWrite]


/-! ## Termination of the cycle -/

theorem firstAt_unique {p : Nat → Bool} {a b : Nat} (ha : firstAt p a) (hb : firstAt p b) :
    a = b := by
  rcases Nat.lt_trichotomy a b with h | h | h
  · have := hb.2 a h
    rw [ha.1] at this
    exact absurd this (by decide)
  · exact h
  · have := ha.2 b h
    rw [hb.1] at this
    exact absurd this (by decide)

theorem empty_hung_dump (env : Env) (fuel : Nat) (w : World)
    (hall : ∀ i, i ≤ fuel → (atDumpPoll env w i).isDumpedTriggered = false) :
    empty env fuel w = Run.hung (atDumpPoll env w fuel) := by
  have he := waitFlag_hung env Flag.isDumpedTriggered true fuel (emptyStart env w) hall
  simp [empty, Run.andThen, he, atDumpPoll]

theorem empty_hung_reverse (env : Env) (fuel j1 : Nat) (w : World)
    (h1 : firstAt (fun j => (atDumpPoll env w j).isDumpedTriggered) j1) (hle : j1 ≤ fuel)
    (hall : ∀ i, i ≤ fuel - j1 → (atReversePoll env w j1 i).isHomeTriggered = false) :
    empty env fuel w = Run.hung (atReversePoll env w j1 (fuel - j1)) := by
  have he1 := waitFlag_done env Flag.isDumpedTriggered true j1 fuel (emptyStart env w)
    h1.1 h1.2 hle
  have he2 := waitFlag_hung env Flag.isHomeTriggered true (fuel - j1)
    (emptyJiggle env (atDumpPoll env w j1)) hall
  simp only [atDumpPoll] at he2
  simp [empty, Run.andThen, he1, he2, atReversePoll, atDumpPoll]

theorem empty_hung_homing (env : Env) (fuel j1 j2 : Nat) (w : World)
    (h1 : firstAt (fun j => (atDumpPoll env w j).isDumpedTriggered) j1)
    (h2 : firstAt (fun j => (atReversePoll env w j1 j).isHomeTriggered) j2)
    (hle : j1 + j2 ≤ fuel)
    (hall : ∀ i, i ≤ fuel - j1 - j2 → (atHomingPoll env w j1 j2 i).isHomeTriggered = false) :
    empty env fuel w = Run.hung (atHomingPoll env w j1 j2 (fuel - j1 - j2)) := by
  have he1 := waitFlag_done env Flag.isDumpedTriggered true j1 fuel (emptyStart env w)
    h1.1 h1.2 (by omega)
  have he2 := waitFlag_done env Flag.isHomeTriggered true j2 (fuel - j1)
    (emptyJiggle env (atDumpPoll env w j1)) h2.1 h2.2 (by omega)
  have he3 := waitFlag_hung env Flag.isHomeTriggered true (fuel - j1 - j2)
    (emptyOvershoot env (atReversePoll env w j1 j2)) hall
  simp only [atDumpPoll, atReversePoll] at he2 he3
  simp [empty, Run.andThen, he1, he2, he3, atHomingPoll, atReversePoll, atDumpPoll]

theorem empty_done (env : Env) (fuel j1 j2 j3 : Nat) (w : World)
    (h1 : firstAt (fun j => (atDumpPoll env w j).isDumpedTriggered) j1)
    (h2 : firstAt (fun j => (atReversePoll env w j1 j).isHomeTriggered) j2)
    (h3 : firstAt (fun j => (atHomingPoll env w j1 j2 j).isHomeTriggered) j3)
    (hle : j1 + j2 + j3 ≤ fuel) :
    empty env fuel w =
      Run.done (fuel - j1 - j2 - j3) (emptyFinish env (atHomingPoll env w j1 j2 j3)) := by
  have he1 := waitFlag_done env Flag.isDumpedTriggered true j1 fuel (emptyStart env w)
    h1.1 h1.2 (by omega)
  have he2 := waitFlag_done env Flag.isHomeTriggered true j2 (fuel - j1)
    (emptyJiggle env (atDumpPoll env w j1)) h2.1 h2.2 (by omega)
  have he3 := waitFlag_done env Flag.isHomeTriggered true j3 (fuel - j1 - j2)
    (emptyOvershoot env (atReversePoll env w j1 j2)) h3.1 h3.2 (by omega)
  simp only [atDumpPoll, atReversePoll] at he2 he3
  simp [empty, Run.andThen, he1, he2, he3, atHomingPoll, atReversePoll, atDumpPoll]

/-- A run of `empty()` returns for some budget exactly when each of its three
waits meets a check that finds its flag set. -/
theorem empty_returns_iff (env : Env) (w : World) :
    (∃ fuel, (empty env fuel w).returned = true) ↔
    ∃ j1 j2 j3, firstAt (fun j => (atDumpPoll env w j).isDumpedTriggered) j1 ∧
      firstAt (fun j => (atReversePoll env w j1 j).isHomeTriggered) j2 ∧
      firstAt (fun j => (atHomingPoll env w j1 j2 j).isHomeTriggered) j3 := by
  constructor
  · rintro ⟨fuel, h⟩
    rcases empty_cases env fuel w with
      ⟨_, he⟩ | ⟨j1, _, h1, ⟨_, he⟩ | ⟨j2, _, h2, ⟨_, he⟩ | ⟨j3, _, h3, he⟩⟩⟩
    · simp [he, Run.returned] at h
    · simp [he, Run.returned] at h
    · simp [he, Run.returned] at h
    · exact ⟨j1, j2, j3, h1, h2, h3⟩
  · rintro ⟨j1, j2, j3, h1, h2, h3⟩
    exact ⟨j1 + j2 + j3, by
      rw [empty_done env _ j1 j2 j3 w h1 h2 h3 (Nat.le_refl _)]; rfl⟩

/-- C9 (no timeout in the cycle). A run of `empty()` returns, for a large
enough budget of polls, if and only if `isDumpedTriggered` is found `true` at
some check of the first wait, then `isHomeTriggered` at some check of the
second wait, then `isHomeTriggered` at some check of the third wait (`j1`,
`j2`, `j3` are the first such checks). If the flag polled by a wait is `false`
at every check, the run never returns, and for every number `n` of 100 ms
polls made in that wait the run is still in the wait, its trace ends with
those `n` polls and a read of `false`, and the line asserted for the wait
(`motor_forward` in the first and third waits, `motor_backward` in the
second) is `HIGH`. -/
theorem no_timeout_in_cycle (env : Env) (w : World) :
    ((∃ fuel, (empty env fuel w).returned = true) ↔
      ∃ j1 j2 j3, firstAt (fun j => (atDumpPoll env w j).isDumpedTriggered) j1 ∧
        firstAt (fun j => (atReversePoll env w j1 j).isHomeTriggered) j2 ∧
        firstAt (fun j => (atHomingPoll env w j1 j2 j).isHomeTriggered) j3) ∧
    ((∀ j, (atDumpPoll env w j).isDumpedTriggered = false) →
      (∀ fuel, (empty env fuel w).returned = false) ∧
      ∀ n, empty env n w = Run.hung (atDumpPoll env w n) ∧
        (atDumpPoll env w n).level Pin.motor_forward = Level.HIGH ∧
        ∃ pre, eventsSince w (atDumpPoll env w n) =
          pre ++ (polls Flag.isDumpedTriggered true n ++
            [Event.read Flag.isDumpedTriggered false])) ∧
    (∀ j1, firstAt (fun j => (atDumpPoll env w j).isDumpedTriggered) j1 →
      (∀ j, (atReversePoll env w j1 j).isHomeTriggered = false) →
      (∀ fuel, (empty env fuel w).returned = false) ∧
      ∀ n, empty env (j1 + n) w = Run.hung (atReversePoll env w j1 n) ∧
        (atReversePoll env w j1 n).level Pin.motor_backward = Level.HIGH ∧
        ∃ pre, eventsSince w (atReversePoll env w j1 n) =
          pre ++ (polls Flag.isHomeTriggered true n ++
            [Event.read Flag.isHomeTriggered false])) ∧
    (∀ j1 j2, firstAt (fun j => (atDumpPoll env w j).isDumpedTriggered) j1 →
      firstAt (fun j => (atReversePoll env w j1 j).isHomeTriggered) j2 →
      (∀ j, (atHomingPoll env w j1 j2 j).isHomeTriggered = false) →
      (∀ fuel, (empty env fuel w).returned = false) ∧
      ∀ n, empty env (j1 + j2 + n) w = Run.hung (atHomingPoll env w j1 j2 n) ∧
        (atHomingPoll env w j1 j2 n).level Pin.motor_forward = Level.HIGH ∧
        ∃ pre, eventsSince w (atHomingPoll env w j1 j2 n) =
          pre ++ (polls Flag.isHomeTriggered true n ++
            [Event.read Flag.isHomeTriggered false])) := by
  have hnot : ∀ fuel, ¬ (∃ j1 j2 j3,
      firstAt (fun j => (atDumpPoll env w j).isDumpedTriggered) j1 ∧
      firstAt (fun j => (atReversePoll env w j1 j).isHomeTriggered) j2 ∧
      firstAt (fun j => (atHomingPoll env w j1 j2 j).isHomeTriggered) j3) →
      (empty env fuel w).returned = false := by
    intro fuel hno
    cases hr : (empty env fuel w).returned with
    | false => rfl
    | true => exact absurd ((empty_returns_iff env w).mp ⟨fuel, hr⟩) hno
  refine ⟨empty_returns_iff env w, ?_, ?_, ?_⟩
  · intro hall
    refine ⟨fun fuel => hnot fuel ?_, fun n => ⟨empty_hung_dump env n w (fun i _ => hall i),
      by simp [atDumpPoll_level], ?_⟩⟩
    · rintro ⟨j1, _, _, h1, _⟩
      have := h1.1
      simp [hall j1] at this
    · refine ⟨startEvents, eventsSince_of_trace _ _ _ ?_⟩
      rw [atDumpPoll_trace env w n (fun i _ => hall i), hall n]
  · intro j1 h1 hall
    refine ⟨fun fuel => hnot fuel ?_, fun n => ⟨?_, by simp [atReversePoll_level], ?_⟩⟩
    · rintro ⟨k1, k2, _, g1, g2, _⟩
      have hk : k1 = j1 := firstAt_unique g1 h1
      subst hk
      have := g2.1
      simp [hall k2] at this
    · have := empty_hung_reverse env (j1 + n) j1 w h1 (Nat.le_add_right _ _)
        (fun i _ => hall i)
      simpa using this
    · refine ⟨startEvents ++ (polls Flag.isDumpedTriggered true j1 ++
        (Event.read Flag.isDumpedTriggered true :: jiggleEvents)),
        eventsSince_of_trace _ _ _ ?_⟩
      rw [atReversePoll_trace env w j1 n h1 (fun i _ => hall i), hall n]
      simp
  · intro j1 j2 h1 h2 hall
    refine ⟨fun fuel => hnot fuel ?_, fun n => ⟨?_, by simp [atHomingPoll_level], ?_⟩⟩
    · rintro ⟨k1, k2, k3, g1, g2, g3⟩
      have hk : k1 = j1 := firstAt_unique g1 h1
      subst hk
      have hk2 : k2 = j2 := firstAt_unique g2 h2
      subst hk2
      have := g3.1
      simp [hall k3] at this
    · have := empty_hung_homing env (j1 + j2 + n) j1 j2 w h1 h2 (Nat.le_add_right _ _)
        (fun i _ => hall i)
      have hsub : j1 + j2 + n - j1 - j2 = n := by omega
      rw [hsub] at this
      exact this
    · refine ⟨startEvents ++ (polls Flag.isDumpedTriggered true j1 ++
        (Event.read Flag.isDumpedTriggered true :: (jiggleEvents ++
        (polls Flag.isHomeTriggered true j2 ++
        (Event.read Flag.isHomeTriggered true :: overshootEvents))))),
        eventsSince_of_trace _ _ _ ?_⟩
      rw [atHomingPoll_trace env w j1 j2 n h1 h2 (fun i _ => hall i), hall n]
      simp


/-! ## The final approach on a stale home flag -/

theorem fire_attached (w : World) (e : Edge) : (fire w e).attached = w.attached := by
  unfold fire
  cases w.attached e.pin with
  | none => rfl
  | some h => cases h <;> rfl

theorem foldl_fire_home (es : List Edge) (w : World) (hh : w.isHomeTriggered = true)
    (hq : ∀ e, e ∈ es → w.attached e.pin = some Handler.homeInterrupt → e.line = Level.LOW) :
    (es.foldl fire w).isHomeTriggered = true := by
  induction es generalizing w with
  | nil => exact hh
  | cons e es ih =>
    simp only [List.foldl_cons]
    apply ih
    · have he := hq e (List.mem_cons_self e es)
      unfold fire
      cases hat : w.attached e.pin with
      | none => exact hh
      | some h =>
        cases h with
        | homeInterrupt => simp [runHandler, he hat]
        | dumpInterrupt => simpa [runHandler] using hh
        | catPresenceInterrupt => simpa [runHandler] using hh
    · intro e2 he2 hat
      rw [fire_attached] at hat
      exact hq e2 (List.mem_cons_of_mem e he2) hat

/-- A statement during which every run of `homeInterrupt` re-reads `LOW`
leaves a set `isHomeTriggered` set. -/
theorem tick_home (env : Env) (w : World) (hh : w.isHomeTriggered = true)
    (hq : ∀ e, e ∈ env.edges w.clock → w.attached e.pin = some Handler.homeInterrupt →
      e.line = Level.LOW) :
    Flag.isHomeTriggered.get (tick env w) = true :=
  foldl_fire_home (env.edges w.clock) w hh hq

theorem emptyOvershoot_home (env : Env) (w0 x : World)
    (hh : x.isHomeTriggered = true) (hat : x.attached = w0.attached)
    (hq : ∀ k, x.clock ≤ k → k < x.clock + 5 → ∀ e, e ∈ env.edges k →
      w0.attached e.pin = some Handler.homeInterrupt → e.line = Level.LOW) :
    (sample env Flag.isHomeTriggered (emptyOvershoot env x)).isHomeTriggered = true := by
  have step : ∀ (y : World) (k : Nat), y.isHomeTriggered = true → y.attached = w0.attached →
      y.clock = x.clock + k → k < 5 → Flag.isHomeTriggered.get (tick env y) = true := by
    intro y k hy ha hc hk
    refine tick_home env y hy fun e he hat => ?_
    rw [ha] at hat
    exact hq y.clock (by omega) (by omega) e he hat
  have a1 : Flag.isHomeTriggered.get (delay env 6500 x) = true := by
    rw [delay_flag]; exact step x 0 hh hat rfl (by omega)
  have a2 : Flag.isHomeTriggered.get
      (digitalWrite env Pin.motor_backward Level.LOW (delay env 6500 x)) = true := by
    rw [digitalWrite_flag]
    exact step _ 1 a1 (by simp [hat]) (by simp) (by omega)
  have a3 : Flag.isHomeTriggered.get (delay env 1000
      (digitalWrite env Pin.motor_backward Level.LOW (delay env 6500 x))) = true := by
    rw [delay_flag]
    exact step _ 2 a2 (by simp [hat]) (by simp) (by omega)
  have a4 : Flag.isHomeTriggered.get (digitalWrite env Pin.motor_forward Level.HIGH
      (delay env 1000 (digitalWrite env Pin.motor_backward Level.LOW (delay env 6500 x)))) =
      true := by
    rw [digitalWrite_flag]
    exact step _ 3 a3 (by simp [hat]) (by simp) (by omega)
  have a5 := step _ 4 a4 (by simp [hat]) (by simp) (by omega)
  have hs := sample_flag env Flag.isHomeTriggered Flag.isHomeTriggered (emptyOvershoot env x)
  simp only [emptyOvershoot] at hs ⊢
  rw [a5] at hs
  exact hs

theorem atReversePoll_attached (env : Env) (w : World) (j1 j : Nat) :
    (atReversePoll env w j1 j).attached = w.attached := by
  simp [atReversePoll, atDumpPoll, pollWorld_attached, emptyJiggle_attached, emptyStart_attached]

theorem polls_pos_head (f : Flag) (stop : Bool) (n : Nat) (h : 0 < n) :
    ∃ rest, polls f stop n = Event.read f (!stop) :: Event.delay 100 :: rest := by
  cases n with
  | zero => exact absurd h (Nat.lt_irrefl 0)
  | succ n => exact ⟨polls f stop n, rfl⟩

/-- C10 (zero-length homing approach on a stale home flag). Let the first wait
of `empty()` end at its check `j1` and the second at its check `j2`, with
budget for both. If every run of `homeInterrupt` during the five statements
that follow the check ending the second wait (the 6500 ms overshoot, the stop,
the 1000 ms settle, the forward command and the first check of the third
wait) re-reads the line `LOW`, so that no handler changes `isHomeTriggered`,
then the run returns and its effects after that check are exactly: 6500 ms,
reverse off, 1000 ms, forward on, a read of `isHomeTriggered` returning
`true`, forward off, the closing log line, the return: no `delay(100)` lies
between forward on and forward off. In general, when the third wait ends at
its check `j3`, the effects after the second wait are the overshoot, `j3`
polls, the read of `true` and the finish; and if `j3 > 0` the first check of
the third wait read `false` and was followed by a `delay(100)`. -/
theorem stale_home_flag_skips_homing (env : Env) (w : World) (fuel j1 j2 : Nat)
    (h1 : firstAt (fun j => (atDumpPoll env w j).isDumpedTriggered) j1)
    (h2 : firstAt (fun j => (atReversePoll env w j1 j).isHomeTriggered) j2)
    (hfuel : j1 + j2 ≤ fuel) :
    ((∀ k, (atReversePoll env w j1 j2).clock ≤ k → k < (atReversePoll env w j1 j2).clock + 5 →
        ∀ e, e ∈ env.edges k → w.attached e.pin = some Handler.homeInterrupt →
          e.line = Level.LOW) →
      (empty env fuel w).returned = true ∧
      eventsSince (atReversePoll env w j1 j2) (empty env fuel w).world =
        [Event.delay 6500, Event.digitalWrite Pin.motor_backward Level.LOW, Event.delay 1000,
         Event.digitalWrite Pin.motor_forward Level.HIGH,
         Event.read Flag.isHomeTriggered true,
         Event.digitalWrite Pin.motor_forward Level.LOW,
         Event.println "Litter box is empty!", Event.leave Fn.empty]) ∧
    (∀ j3, firstAt (fun j => (atHomingPoll env w j1 j2 j).isHomeTriggered) j3 →
      j1 + j2 + j3 ≤ fuel →
      (empty env fuel w).returned = true ∧
      eventsSince (atReversePoll env w j1 j2) (empty env fuel w).world =
        [Event.delay 6500, Event.digitalWrite Pin.motor_backward Level.LOW, Event.delay 1000,
         Event.digitalWrite Pin.motor_forward Level.HIGH] ++
        (polls Flag.isHomeTriggered true j3 ++
        [Event.read Flag.isHomeTriggered true,
         Event.digitalWrite Pin.motor_forward Level.LOW,
         Event.println "Litter box is empty!", Event.leave Fn.empty]) ∧
      (0 < j3 → (atHomingPoll env w j1 j2 0).isHomeTriggered = false ∧
        ∃ rest, polls Flag.isHomeTriggered true j3 =
          Event.read Flag.isHomeTriggered false :: Event.delay 100 :: rest)) := by
  have general : ∀ j3, firstAt (fun j => (atHomingPoll env w j1 j2 j).isHomeTriggered) j3 →
      j1 + j2 + j3 ≤ fuel →
      (empty env fuel w).returned = true ∧
      eventsSince (atReversePoll env w j1 j2) (empty env fuel w).world =
        [Event.delay 6500, Event.digitalWrite Pin.motor_backward Level.LOW, Event.delay 1000,
         Event.digitalWrite Pin.motor_forward Level.HIGH] ++
        (polls Flag.isHomeTriggered true j3 ++
        [Event.read Flag.isHomeTriggered true,
         Event.digitalWrite Pin.motor_forward Level.LOW,
         Event.println "Litter box is empty!", Event.leave Fn.empty]) := by
    intro j3 h3 hle
    have he := empty_done env fuel j1 j2 j3 w h1 h2 h3 hle
    refine ⟨by rw [he]; rfl, ?_⟩
    apply eventsSince_of_trace
    have h3' : ∀ i, i < j3 → Flag.isHomeTriggered.get (pollWorld env Flag.isHomeTriggered i
        (emptyOvershoot env (atReversePoll env w j1 j2))) = !true :=
      fun i hi => by simpa using h3.2 i hi
    have hd : Flag.isHomeTriggered.get (pollWorld env Flag.isHomeTriggered j3
        (emptyOvershoot env (atReversePoll env w j1 j2))) = true := h3.1
    rw [he, Run.world, emptyFinish_trace, atHomingPoll,
      pollWorld_extends env Flag.isHomeTriggered true j3 _ h3' true hd, emptyOvershoot_trace]
    simp [overshootEvents, finishEvents]
  refine ⟨fun hq => ?_, fun j3 h3 hle => ⟨(general j3 h3 hle).1, (general j3 h3 hle).2, ?_⟩⟩
  · have h0 : firstAt (fun j => (atHomingPoll env w j1 j2 j).isHomeTriggered) 0 :=
      ⟨emptyOvershoot_home env w (atReversePoll env w j1 j2) h2.1
        (atReversePoll_attached env w j1 j2) hq, fun i hi => absurd hi (Nat.not_lt_zero i)⟩
    have := general 0 h0 (by omega)
    simpa [polls] using this
  · intro hpos
    have hp := polls_pos_head Flag.isHomeTriggered true j3 hpos
    exact ⟨h3.2 0 hpos, by simpa using hp⟩


/-! ## Concrete runs -/

theorem tick_flag_no_edges (env : Env) (hno : ∀ k, env.edges k = []) (f : Flag) (w : World) :
    f.get (tick env w) = f.get w := by
  cases f <;> simp [tick, hno, Flag.get]

theorem pollWorld_flag_no_edges (env : Env) (hno : ∀ k, env.edges k = []) (f g : Flag)
    (j : Nat) (w : World) : g.get (pollWorld env f j w) = g.get w := by
  induction j generalizing w with
  | zero => simp [pollWorld, sample_flag, tick_flag_no_edges env hno]
  | succ j ih => simp [pollWorld, ih, sample_flag, tick_flag_no_edges env hno]

theorem atDumpPoll_no_edges (env : Env) (hno : ∀ k, env.edges k = []) (w : World) (j : Nat) :
    (atDumpPoll env w j).isDumpedTriggered = w.isDumpedTriggered := by
  have h := pollWorld_flag_no_edges env hno Flag.isDumpedTriggered Flag.isDumpedTriggered j
    (emptyStart env w)
  have h2 : Flag.isDumpedTriggered.get (emptyStart env w) = Flag.isDumpedTriggered.get w := by
    simp [emptyStart, tick_flag_no_edges env hno]
  rw [h2] at h
  exact h

/-- C9, at concrete runs: with the nominal sensor script the run returns and
the three waits each meet a check that ends them; with no sensor edge at all
the run never returns and after seven polls `motor_forward` is still `HIGH`. -/
theorem no_timeout_in_cycle_witness :
    (∃ j1 j2 j3, firstAt (fun j => (atDumpPoll cycleEnv readyWorld j).isDumpedTriggered) j1 ∧
      firstAt (fun j => (atReversePoll cycleEnv readyWorld j1 j).isHomeTriggered) j2 ∧
      firstAt (fun j => (atHomingPoll cycleEnv readyWorld j1 j2 j).isHomeTriggered) j3) ∧
    (∀ j, (atDumpPoll idleEnv readyWorld j).isDumpedTriggered = false) ∧
    (∀ fuel, (empty idleEnv fuel readyWorld).returned = false) ∧
    empty idleEnv 7 readyWorld = Run.hung (atDumpPoll idleEnv readyWorld 7) ∧
    (atDumpPoll idleEnv readyWorld 7).level Pin.motor_forward = Level.HIGH :=
  have hidle : ∀ j, (atDumpPoll idleEnv readyWorld j).isDumpedTriggered = false :=
    fun j => atDumpPoll_no_edges idleEnv (fun _ => rfl) readyWorld j
  ⟨(no_timeout_in_cycle cycleEnv readyWorld).1.mp ⟨10, by decide⟩, hidle,
    ((no_timeout_in_cycle idleEnv readyWorld).2.1 hidle).1,
    (((no_timeout_in_cycle idleEnv readyWorld).2.1 hidle).2 7).1,
    (((no_timeout_in_cycle idleEnv readyWorld).2.1 hidle).2 7).2.1⟩

/-- C10, at a concrete run: the home sensor closes during the reverse wait and
stays closed, and the final approach is forward on, one read, forward off. -/
theorem stale_home_flag_skips_homing_witness :
    firstAt (fun j => (atDumpPoll staleEnv readyWorld j).isDumpedTriggered) 2 ∧
    firstAt (fun j => (atReversePoll staleEnv readyWorld 2 j).isHomeTriggered) 1 ∧
    2 + 1 ≤ 10 ∧
    (∀ k, (atReversePoll staleEnv readyWorld 2 1).clock ≤ k →
      k < (atReversePoll staleEnv readyWorld 2 1).clock + 5 →
      ∀ e, e ∈ staleEnv.edges k →
        readyWorld.attached e.pin = some Handler.homeInterrupt → e.line = Level.LOW) ∧
    (empty staleEnv 10 readyWorld).returned = true ∧
    eventsSince (atReversePoll staleEnv readyWorld 2 1) (empty staleEnv 10 readyWorld).world =
      [Event.delay 6500, Event.digitalWrite Pin.motor_backward Level.LOW, Event.delay 1000,
       Event.digitalWrite Pin.motor_forward Level.HIGH,
       Event.read Flag.isHomeTriggered true,
       Event.digitalWrite Pin.motor_forward Level.LOW,
       Event.println "Litter box is empty!", Event.leave Fn.empty] :=
  have h1 : firstAt (fun j => (atDumpPoll staleEnv readyWorld j).isDumpedTriggered) 2 :=
    ⟨by decide, by decide⟩
  have h2 : firstAt (fun j => (atReversePoll staleEnv readyWorld 2 j).isHomeTriggered) 1 :=
    ⟨by decide, by decide⟩
  have hc : (atReversePoll staleEnv readyWorld 2 1).clock = 26 := by decide
  have hq : ∀ k, (atReversePoll staleEnv readyWorld 2 1).clock ≤ k →
      k < (atReversePoll staleEnv readyWorld 2 1).clock + 5 →
      ∀ e, e ∈ staleEnv.edges k →
        readyWorld.attached e.pin = some Handler.homeInterrupt → e.line = Level.LOW := by
    intro k hk1 hk2 e he
    rw [hc] at hk1 hk2
    have hk : staleEnv.edges k = [] := by
      have a1 : k ≠ 5 := by omega
      have a2 : k ≠ 8 := by omega
      have a3 : k ≠ 24 := by omega
      simp [staleEnv, a1, a2, a3]
    rw [hk] at he
    exact absurd he (List.not_mem_nil e)
  ⟨h1, h2, by decide, hq,
    (stale_home_flag_skips_homing staleEnv readyWorld 10 2 1 h1 h2 (by decide)).1 hq⟩

/-! ## The dwell decision -/

/-- The decision of the dwell step, read off its effects: when the step called
`millis()` twice, at times `t0` and `t1`, it saw the cat, waited until the
flag read `false`, and after the second call it ran `empty()` once if
`millis() - startTime > 10000` (32-bit), and otherwise only logged the "too
soon" line. -/
theorem dwellStep_decides_by_readings (env : Env) (fuel : Nat) (w : World) (t0 t1 : Nat)
    (h : millisTimes (eventsSince w (dwellStep env fuel w).world) = [t0, t1]) :
    ∃ n tail, eventsSince w (dwellStep env fuel w).world =
      Event.read Flag.catPresent true ::
      Event.println "Cat is present... waiting for cat to leave" :: Event.millis t0 ::
      (polls Flag.catPresent false n ++
        (Event.read Flag.catPresent false :: Event.millis t1 :: tail)) ∧
    t0 ≤ t1 ∧
    (10000 < elapsed32 t0 t1 → tail.count (Event.enter Fn.empty) = 1 ∧
      Event.println "Cat left the box too soon" ∉ tail ∧
      tail.count (Event.enter Fn.handleEmpty) = 0) ∧
    (elapsed32 t0 t1 ≤ 10000 → tail = [Event.println "Cat left the box too soon"]) := by
  rcases dwellStep_events env fuel w with he | ⟨a, he⟩ | ⟨a, b, n, tail, he, hab, hd⟩
  · rw [he] at h; simp [millisTimes] at h
  · rw [he] at h; simp [millisTimes, millisTimes_polls] at h
  · rcases hd with ⟨hgt, fuel1, w1, ht⟩ | ⟨hle, ht⟩
    · obtain ⟨f1, f2, f3, _, f5, _⟩ := empty_events_facts env fuel1 w1
      have f5c := List.count_eq_zero_of_not_mem f5
      rw [he, ht] at h
      simp [millisTimes, millisTimes_polls, f2] at h
      obtain ⟨ha, hb⟩ := h
      subst ha; subst hb
      refine ⟨n, tail, he, hab, fun _ => ?_, fun hle => absurd hgt (Nat.not_lt.mpr hle)⟩
      rw [ht]
      simp [List.count_cons, f1, f3, f5c]
    · rw [he, ht] at h
      simp [millisTimes, millisTimes_polls] at h
      obtain ⟨ha, hb⟩ := h
      subst ha; subst hb
      exact ⟨n, tail, he, hab, fun hgt => absurd hgt (Nat.not_lt.mpr hle), fun _ => ht⟩

/-- The same decision, for a whole call of `loop()`: the effects of the link
check and of the network-servicing step come first; they contain no call of
`millis()` and as many entries into `empty()` as into `handleEmpty()`. -/
theorem loop_decides_by_readings (env : Env) (fuel : Nat) (w : World) (t0 t1 : Nat)
    (h : millisTimes (eventsSince w (loop env fuel w).world) = [t0, t1]) :
    ∃ pre n tail, eventsSince w (loop env fuel w).world =
      pre ++ (Event.read Flag.catPresent true ::
      Event.println "Cat is present... waiting for cat to leave" :: Event.millis t0 ::
      (polls Flag.catPresent false n ++
        (Event.read Flag.catPresent false :: Event.millis t1 :: tail))) ∧
    millisTimes pre = [] ∧
    pre.count (Event.enter Fn.empty) = pre.count (Event.enter Fn.handleEmpty) ∧
    t0 ≤ t1 ∧
    (10000 < elapsed32 t0 t1 → tail.count (Event.enter Fn.empty) = 1 ∧
      Event.println "Cat left the box too soon" ∉ tail ∧
      tail.count (Event.enter Fn.handleEmpty) = 0) ∧
    (elapsed32 t0 t1 ≤ 10000 → tail = [Event.println "Cat left the box too soon"]) := by
  obtain ⟨pre, _, tpre, _, _, mpre⟩ := @orderly_loopService true env fuel w
  have hpre := (mpre rfl).1
  cases hs : loopService env fuel w with
  | hung w1 =>
    rw [hs] at tpre
    simp only [Run.world] at tpre
    have hl : loop env fuel w = Run.hung w1 := by simp [loop, hs, Run.andThen]
    rw [hl, Run.world, eventsSince_of_trace w w1 pre tpre, hpre] at h
    exact absurd h (by simp)
  | done f2 w2 =>
    have hbal := (mpre rfl).2
    rw [hs] at tpre hbal
    simp only [Run.world] at tpre
    have hl : loop env fuel w = dwellStep env f2 w2 := by simp [loop, hs, Run.andThen]
    obtain ⟨devs, _, tdw, _, _, _⟩ := orderly_dwellStep env f2 w2
    have hd := eventsSince_of_trace w2 _ devs tdw
    have hall : eventsSince w (loop env fuel w).world =
        pre ++ eventsSince w2 (dwellStep env f2 w2).world := by
      apply eventsSince_of_trace
      rw [hl, tdw, tpre, hd, List.append_assoc]
    rw [hall, millisTimes_append, hpre, List.nil_append] at h
    obtain ⟨n, tail, he, hab, hgt, hle⟩ := dwellStep_decides_by_readings env f2 w2 t0 t1 h
    exact ⟨pre, n, tail, by rw [hall, he], hpre, hbal rfl, hab, hgt, hle⟩

/-- Number of runs of `empty()` in a call of `loop()` that called `millis()`
at `t0` and `t1`: one for each run of `handleEmpty()`, and one more exactly
when `millis() - startTime > 10000`; otherwise the "too soon" line is
logged. -/
theorem loop_runs_by_readings (env : Env) (fuel : Nat) (w : World) (t0 t1 : Nat)
    (h : millisTimes (eventsSince w (loop env fuel w).world) = [t0, t1]) :
    (10000 < elapsed32 t0 t1 →
      (eventsSince w (loop env fuel w).world).count (Event.enter Fn.empty) =
        (eventsSince w (loop env fuel w).world).count (Event.enter Fn.handleEmpty) + 1) ∧
    (elapsed32 t0 t1 ≤ 10000 →
      (eventsSince w (loop env fuel w).world).count (Event.enter Fn.empty) =
        (eventsSince w (loop env fuel w).world).count (Event.enter Fn.handleEmpty) ∧
      Event.println "Cat left the box too soon" ∈ eventsSince w (loop env fuel w).world) := by
  have c1 := fun (n : Nat) => count_polls Flag.catPresent false n (Event.enter Fn.empty)
    (fun _ _ => by simp) (fun _ => by simp)
  have c2 := fun (n : Nat) => count_polls Flag.catPresent false n (Event.enter Fn.handleEmpty)
    (fun _ _ => by simp) (fun _ => by simp)
  obtain ⟨pre, n, tail, he, _, hbal, _, hgt, hle⟩ := loop_decides_by_readings env fuel w t0 t1 h
  constructor
  · intro hg
    obtain ⟨g1, _, g3⟩ := hgt hg
    rw [he]
    simp [List.count_cons, List.count_append, c1, c2, g1, g3, hbal]
  · intro hl
    rw [he, hle hl]
    simp [List.count_cons, List.count_append, c1, c2, hbal]

/-- The 32-bit difference of two readings of `millis()` is the true elapsed
time whenever that is below `2^32` ms, wrap-around or not. -/
theorem elapsed32_eq (t0 t1 : Nat) (hle : t0 ≤ t1) (hd : t1 - t0 < 4294967296) :
    elapsed32 t0 t1 = t1 - t0 := by
  unfold elapsed32 sub32 millisAt
  omega

/-- C4 as stated fails: a call of `loop()` that serves `GET /empty` and then
sees a visit measured at 100 ms (`millis()` called at 10900 and 11000) has
entered `empty()` once, although `elapsed <= 10000`; the "too soon" line is
logged for the visit. -/
theorem short_visit_after_request_runs_cycle :
    millisTimes (eventsSince readyWorld (loop (requestEnv 49) 10 readyWorld).world) =
      [10900, 11000] ∧
    elapsed32 10900 11000 = 100 ∧
    (eventsSince readyWorld (loop (requestEnv 49) 10 readyWorld).world).count
      (Event.enter Fn.empty) = 1 ∧
    (eventsSince readyWorld (loop (requestEnv 49) 10 readyWorld).world).count
      (Event.enter Fn.handleEmpty) = 1 ∧
    Event.println "Cat left the box too soon" ∈
      eventsSince readyWorld (loop (requestEnv 49) 10 readyWorld).world := by
  decide

/-- C4, amended (dwell decision). In a call of `loop()` that called `millis()`
twice, at times `t0 <= t1` (milliseconds since boot; the values read are
`millisAt t0` and `millisAt t1`): after the link check and the
network-servicing step, whose effects `pre` contain no call of `millis()` and
one entry into `empty()` per entry into `handleEmpty()`, the call saw
`catPresent` true, read the clock, polled every 100 ms until `catPresent` read
`false`, and read the clock again. With
`elapsed = (millisAt t1 - millisAt t0) mod 2^32`: if `elapsed > 10000`, what
follows the second reading contains exactly one entry into `empty()` and no
"too soon" line, and the whole call has entered `empty()` once more than
`handleEmpty()`; if `elapsed <= 10000`, what follows is the "too soon" line
and nothing else, and the whole call has entered `empty()` exactly as often as
`handleEmpty()`. When the true elapsed time `t1 - t0` is below `2^32` ms,
`elapsed` equals it, whether or not `millis()` wrapped in between. -/
theorem dwell_decision (env : Env) (fuel : Nat) (w : World) (t0 t1 : Nat)
    (h : millisTimes (eventsSince w (loop env fuel w).world) = [t0, t1]) :
    t0 ≤ t1 ∧
    (∃ pre n tail, eventsSince w (loop env fuel w).world =
      pre ++ (Event.read Flag.catPresent true ::
      Event.println "Cat is present... waiting for cat to leave" :: Event.millis t0 ::
      (polls Flag.catPresent false n ++
        (Event.read Flag.catPresent false :: Event.millis t1 :: tail))) ∧
      millisTimes pre = [] ∧
      pre.count (Event.enter Fn.empty) = pre.count (Event.enter Fn.handleEmpty) ∧
      (10000 < elapsed32 t0 t1 → tail.count (Event.enter Fn.empty) = 1 ∧
        Event.println "Cat left the box too soon" ∉ tail) ∧
      (elapsed32 t0 t1 ≤ 10000 → tail = [Event.println "Cat left the box too soon"] ∧
        tail.count (Event.enter Fn.empty) = 0)) ∧
    (10000 < elapsed32 t0 t1 →
      (eventsSince w (loop env fuel w).world).count (Event.enter Fn.empty) =
        (eventsSince w (loop env fuel w).world).count (Event.enter Fn.handleEmpty) + 1) ∧
    (elapsed32 t0 t1 ≤ 10000 →
      (eventsSince w (loop env fuel w).world).count (Event.enter Fn.empty) =
        (eventsSince w (loop env fuel w).world).count (Event.enter Fn.handleEmpty) ∧
      Event.println "Cat left the box too soon" ∈ eventsSince w (loop env fuel w).world) ∧
    (t1 - t0 < 4294967296 → elapsed32 t0 t1 = t1 - t0) := by
  obtain ⟨pre, n, tail, he, hp, hbal, hab, hgt, hle⟩ :=
    loop_decides_by_readings env fuel w t0 t1 h
  refine ⟨hab, ⟨pre, n, tail, he, hp, hbal, fun hg => ⟨(hgt hg).1, (hgt hg).2.1⟩,
    fun hl => ⟨hle hl, ?_⟩⟩, (loop_runs_by_readings env fuel w t0 t1 h).1,
    (loop_runs_by_readings env fuel w t0 t1 h).2, elapsed32_eq t0 t1 hab⟩
  rw [hle hl]
  decide

/-- C4 amended, at a concrete call of `loop()` across the wrap of `millis()`:
the clock is read 4294960000 ms and 4294970100 ms after boot (the second value
read is 2804), the 32-bit difference is the true 10100 ms, no request was
served and `empty()` is entered once. -/
theorem dwell_decision_witness :
    millisTimes (eventsSince lateWorld (loop longVisitEnv 200 lateWorld).world) =
      [4294960000, 4294970100] ∧
    millisAt 4294970100 = 2804 ∧
    elapsed32 4294960000 4294970100 = 4294970100 - 4294960000 ∧
    (eventsSince lateWorld (loop longVisitEnv 200 lateWorld).world).count
      (Event.enter Fn.handleEmpty) = 0 ∧
    (eventsSince lateWorld (loop longVisitEnv 200 lateWorld).world).count
      (Event.enter Fn.empty) =
      (eventsSince lateWorld (loop longVisitEnv 200 lateWorld).world).count
        (Event.enter Fn.handleEmpty) + 1 :=
  ⟨by decide, by decide,
    (dwell_decision longVisitEnv 200 lateWorld 4294960000 4294970100 (by decide)).2.2.2.2
      (by decide),
    by decide,
    (dwell_decision longVisitEnv 200 lateWorld 4294960000 4294970100 (by decide)).2.2.1
      (by decide)⟩

/-- C5 as stated fails, twice over: a visit whose measured duration is exactly
10000 ms (one hundred 100 ms polls, `millis()` called at 0 and 10000) does not
run `empty()`, and the call of `loop()` logs the "too soon" line; and a call
of `loop()` that serves `GET /empty` before a visit measured at 10100 ms has
entered `empty()` twice, not once. -/
theorem dwell_exactly_ten_seconds_no_cycle :
    (millisTimes (eventsSince catWorld (loop tenSecondEnv 200 catWorld).world) =
      [0, 10000] ∧
    elapsed32 0 10000 = 10000 ∧
    (eventsSince catWorld (loop tenSecondEnv 200 catWorld).world).count
      (Event.enter Fn.empty) = 0 ∧
    Event.println "Cat left the box too soon" ∈
      eventsSince catWorld (loop tenSecondEnv 200 catWorld).world) ∧
    (millisTimes (eventsSince readyWorld (loop (requestEnv 249) 200 readyWorld).world) =
      [10900, 21000] ∧
    elapsed32 10900 21000 = 10100 ∧
    (eventsSince readyWorld (loop (requestEnv 249) 200 readyWorld).world).count
      (Event.enter Fn.empty) = 2) := by
  decide

/-- C5, amended (the threshold is strict, and a cycle requested over HTTP in
the same call is counted apart). For a visit whose duration measured by a call
of `loop()` is `elapsed = (millisAt t1 - millisAt t0) mod 2^32` (`millis()`
called at `t0` when the presence was seen and at `t1` when it was seen to
clear): if `elapsed` is below 10000 ms, or exactly 10000 ms, the call logs the
"too soon" line and has entered `empty()` exactly as often as `handleEmpty()`
(not at all when no `GET /empty` was served); if `elapsed` is above 10000 ms,
the call has entered `empty()` exactly once more than `handleEmpty()` (exactly
once when no `GET /empty` was served). -/
theorem dwell_threshold_strict (env : Env) (fuel : Nat) (w : World) (t0 t1 : Nat)
    (h : millisTimes (eventsSince w (loop env fuel w).world) = [t0, t1]) :
    (elapsed32 t0 t1 < 10000 →
      (eventsSince w (loop env fuel w).world).count (Event.enter Fn.empty) =
        (eventsSince w (loop env fuel w).world).count (Event.enter Fn.handleEmpty) ∧
      ((eventsSince w (loop env fuel w).world).count (Event.enter Fn.handleEmpty) = 0 →
        (eventsSince w (loop env fuel w).world).count (Event.enter Fn.empty) = 0) ∧
      Event.println "Cat left the box too soon" ∈ eventsSince w (loop env fuel w).world) ∧
    (elapsed32 t0 t1 = 10000 →
      (eventsSince w (loop env fuel w).world).count (Event.enter Fn.empty) =
        (eventsSince w (loop env fuel w).world).count (Event.enter Fn.handleEmpty) ∧
      ((eventsSince w (loop env fuel w).world).count (Event.enter Fn.handleEmpty) = 0 →
        (eventsSince w (loop env fuel w).world).count (Event.enter Fn.empty) = 0) ∧
      Event.println "Cat left the box too soon" ∈ eventsSince w (loop env fuel w).world) ∧
    (10000 < elapsed32 t0 t1 →
      (eventsSince w (loop env fuel w).world).count (Event.enter Fn.empty) =
        (eventsSince w (loop env fuel w).world).count (Event.enter Fn.handleEmpty) + 1 ∧
      ((eventsSince w (loop env fuel w).world).count (Event.enter Fn.handleEmpty) = 0 →
        (eventsSince w (loop env fuel w).world).count (Event.enter Fn.empty) = 1)) := by
  obtain ⟨hgt, hle⟩ := loop_runs_by_readings env fuel w t0 t1 h
  have hlow : elapsed32 t0 t1 ≤ 10000 →
      (eventsSince w (loop env fuel w).world).count (Event.enter Fn.empty) =
        (eventsSince w (loop env fuel w).world).count (Event.enter Fn.handleEmpty) ∧
      ((eventsSince w (loop env fuel w).world).count (Event.enter Fn.handleEmpty) = 0 →
        (eventsSince w (loop env fuel w).world).count (Event.enter Fn.empty) = 0) ∧
      Event.println "Cat left the box too soon" ∈ eventsSince w (loop env fuel w).world :=
    fun hl => ⟨(hle hl).1, fun h0 => by rw [(hle hl).1, h0], (hle hl).2⟩
  exact ⟨fun hlt => hlow (Nat.le_of_lt hlt), fun heq => hlow (Nat.le_of_eq heq),
    fun hg => ⟨hgt hg, fun h0 => by rw [hgt hg, h0]⟩⟩

/-- C5 amended, at concrete visits: one of exactly 10000 ms with no request
(no cycle, "too soon" logged) and one of 10100 ms after a served `GET /empty`
(two entries into `empty()` for one into `handleEmpty()`). -/
theorem dwell_threshold_strict_witness :
    millisTimes (eventsSince catWorld (loop tenSecondEnv 200 catWorld).world) = [0, 10000] ∧
    ((eventsSince catWorld (loop tenSecondEnv 200 catWorld).world).count
        (Event.enter Fn.empty) =
      (eventsSince catWorld (loop tenSecondEnv 200 catWorld).world).count
        (Event.enter Fn.handleEmpty) ∧
    ((eventsSince catWorld (loop tenSecondEnv 200 catWorld).world).count
        (Event.enter Fn.handleEmpty) = 0 →
      (eventsSince catWorld (loop tenSecondEnv 200 catWorld).world).count
        (Event.enter Fn.empty) = 0) ∧
    Event.println "Cat left the box too soon" ∈
      eventsSince catWorld (loop tenSecondEnv 200 catWorld).world) ∧
    millisTimes (eventsSince readyWorld (loop (requestEnv 249) 200 readyWorld).world) =
      [10900, 21000] ∧
    ((eventsSince readyWorld (loop (requestEnv 249) 200 readyWorld).world).count
        (Event.enter Fn.empty) =
      (eventsSince readyWorld (loop (requestEnv 249) 200 readyWorld).world).count
        (Event.enter Fn.handleEmpty) + 1 ∧
    ((eventsSince readyWorld (loop (requestEnv 249) 200 readyWorld).world).count
        (Event.enter Fn.handleEmpty) = 0 →
      (eventsSince readyWorld (loop (requestEnv 249) 200 readyWorld).world).count
        (Event.enter Fn.empty) = 1)) :=
  ⟨by decide,
    (dwell_threshold_strict tenSecondEnv 200 catWorld 0 10000 (by decide)).2.1 (by decide),
    by decide,
    (dwell_threshold_strict (requestEnv 249) 200 readyWorld 10900 21000 (by decide)).2.2
      (by decide)⟩

end CatBox
